import Mathlib

/-!
Verification of the FastRegrid spatial-mapping and interpolation engine.

This file gives a shallow embedding, over the real numbers, of the core of
the FastRegrid C++ library (headers `utils.h`, `config.h`, `types.h`,
`spatial_index.h`, `interpolation.h`) and proves the main behavioural
properties of the engine against it.

Modelling conventions:
* C++ `double` is modelled by `ℝ` (exact real arithmetic).
* Functions that can `throw` are modelled as `Except String` values carrying
  the C++ exception message; an uncaught exception is an `Except.error`.
* `std::numeric_limits<double>::max()` as the initial "no winner yet" value
  of the nearest-neighbour scans is modelled by `Option` (`none` = no winner
  yet); every actually computed distance compares below it, as in C++.
* `static_cast<size_t>(int)` is modelled by `size_t_cast` (reduction modulo
  `2 ^ 64`, matching a 64-bit `size_t`).
* `std::sort` with the strict comparator on the stored distance is modelled
  by the (stable) `List.mergeSort` on the non-strict comparator; both produce
  a permutation that is non-decreasing in the distance, and the order of
  equal-distance entries is unspecified by `std::sort`.
* `std::atan2 y x` is only ever called here with `y = sqrt a ≥ 0` and
  `x = sqrt (1 - a) ≥ 0`; `atan2_nn` models it on that closed first quadrant,
  including `atan2(0, 0) = 0`.
-/

open scoped Classical

namespace fastregrid

/-- Interpolation method options, from `types.h`. -/
inductive InterpolationMethod where
  | NEAREST_NEIGHBOR
  | INVERSE_DISTANCE_WEIGHTED
deriving DecidableEq

/-- Distance metric options, from `types.h`. -/
inductive DistanceMetric where
  | EUCLIDEAN
  | HAVERSINE
deriving DecidableEq

/-- Data layout options, from `types.h`. -/
inductive DataLayout where
  | YEAR_BY_YEAR
  | GRID_BY_TIME
deriving DecidableEq

/-- A geospatial point with longitude and latitude, from `types.h`. -/
structure GridPoint where
  longitude : ℝ
  latitude : ℝ

/-- Data for a grid point at a specific time step, from `types.h`. -/
structure SpatialData where
  gridPoint : GridPoint
  time_step : ℤ
  values : List ℝ

/-- Configuration for regridding operations, from `config.h`.
`int` fields are modelled by `ℤ`, `size_t` by `ℕ`. -/
structure RegridConfig where
  interp_method : InterpolationMethod
  distance_metric : DistanceMetric
  data_layout : DataLayout
  radius : ℝ
  power : ℝ
  max_points : ℤ
  min_points : ℤ
  adjust_longitude : Bool
  precision : ℤ
  verbose : Bool
  write_mappings : Bool
  nn_mappings_file : String
  idw_mappings_file : String
  chunk_size : ℕ
  output_path : String

/-- The default member initializers of `struct RegridConfig` in `config.h`. -/
def default_config : RegridConfig where
  interp_method := .INVERSE_DISTANCE_WEIGHTED
  distance_metric := .HAVERSINE
  data_layout := .GRID_BY_TIME
  radius := 100
  power := 2
  max_points := 5
  min_points := 5
  adjust_longitude := true
  precision := 5
  verbose := false
  write_mappings := false
  nn_mappings_file := "nn_mappings.txt"
  idw_mappings_file := "idw_mappings.txt"
  chunk_size := 1000
  output_path := "./"

namespace utils

/-- `utils::to_radians` from `utils.h`: degrees to radians. -/
noncomputable def to_radians (degrees : ℝ) : ℝ :=
  degrees * Real.pi / 180

/-- First `while` loop of `utils::adjust_longitude`: repeatedly subtract 360
while the longitude exceeds 180. -/
noncomputable def adjust_step_down (lon : ℝ) : ℝ :=
  if 180 < lon then adjust_step_down (lon - 360) else lon
termination_by (⌈(lon - 180) / 360⌉).toNat
decreasing_by
  rename_i h
  have h1 : (0 : ℝ) < (lon - 180) / 360 := by
    apply div_pos <;> linarith
  have h2 : (0 : ℤ) < ⌈(lon - 180) / 360⌉ := Int.ceil_pos.mpr h1
  have h3 : (lon - 360 - 180) / 360 = (lon - 180) / 360 - 1 := by ring
  rw [h3, Int.ceil_sub_one]
  omega

/-- Second `while` loop of `utils::adjust_longitude`: repeatedly add 360
while the longitude is below -180. -/
noncomputable def adjust_step_up (lon : ℝ) : ℝ :=
  if lon < -180 then adjust_step_up (lon + 360) else lon
termination_by (⌈(-180 - lon) / 360⌉).toNat
decreasing_by
  rename_i h
  have h1 : (0 : ℝ) < (-180 - lon) / 360 := by
    apply div_pos <;> linarith
  have h2 : (0 : ℤ) < ⌈(-180 - lon) / 360⌉ := Int.ceil_pos.mpr h1
  have h3 : (-180 - (lon + 360)) / 360 = (-180 - lon) / 360 - 1 := by ring
  rw [h3, Int.ceil_sub_one]
  omega

/-- `utils::adjust_longitude` from `utils.h`: normalize longitude to
[-180, 180] by repeated ±360 shifts (two sequential `while` loops). -/
noncomputable def adjust_longitude (lon : ℝ) : ℝ :=
  adjust_step_up (adjust_step_down lon)

/-- The saturated cosine factor computed inside `utils::km_to_degrees`:
`cos(to_radians lat)`, replaced by `1e-10` when its absolute value is
below `1e-10`. -/
noncomputable def cos_floor (latitude : ℝ) : ℝ :=
  if |Real.cos (to_radians latitude)| < 1e-10 then 1e-10
  else Real.cos (to_radians latitude)

/-- The value returned by `utils::km_to_degrees` on valid input. -/
noncomputable def km_to_degrees_val (km latitude : ℝ) : ℝ :=
  km / (111.32 * cos_floor latitude)

/-- `utils::km_to_degrees` from `utils.h`, with its two
`std::invalid_argument` throws. -/
noncomputable def km_to_degrees (km latitude : ℝ) : Except String ℝ :=
  if km < 0 then .error "Distance in km must be non-negative"
  else if 90 < |latitude| then .error "Latitude must be in [-90, 90]"
  else .ok (km_to_degrees_val km latitude)

/-- `std::atan2 y x` restricted to the closed first quadrant
(`y ≥ 0`, `x ≥ 0`), the only regime in which the Haversine code calls it:
`atan2(y, 0) = π/2` for `y > 0`, `atan2(0, 0) = 0`, else `arctan (y/x)`. -/
noncomputable def atan2_nn (y x : ℝ) : ℝ :=
  if x = 0 then (if y = 0 then 0 else Real.pi / 2)
  else Real.arctan (y / x)

/-- The Haversine great-circle distance in km computed by
`utils::compute_distance` (metric `HAVERSINE`), sphere radius 6371 km. -/
noncomputable def haversine_km (lon1 lat1 lon2 lat2 : ℝ) : ℝ :=
  let lat1_rad := to_radians lat1
  let lat2_rad := to_radians lat2
  let delta_lat := to_radians (lat2 - lat1)
  let delta_lon := to_radians (lon2 - lon1)
  let a := Real.sin (delta_lat / 2) * Real.sin (delta_lat / 2) +
      Real.cos lat1_rad * Real.cos lat2_rad *
        Real.sin (delta_lon / 2) * Real.sin (delta_lon / 2)
  let c := 2 * atan2_nn (Real.sqrt a) (Real.sqrt (1 - a))
  6371 * c

/-- The planar distance in raw degrees computed by `utils::compute_distance`
(metric `EUCLIDEAN`). -/
noncomputable def euclidean_deg (lon1 lat1 lon2 lat2 : ℝ) : ℝ :=
  Real.sqrt ((lon2 - lon1) * (lon2 - lon1) + (lat2 - lat1) * (lat2 - lat1))

/-- The distance formula selected by the metric (the value
`utils::compute_distance` returns once validation has passed). -/
noncomputable def dist_val (lon1 lat1 lon2 lat2 : ℝ) : DistanceMetric → ℝ
  | .HAVERSINE => haversine_km lon1 lat1 lon2 lat2
  | .EUCLIDEAN => euclidean_deg lon1 lat1 lon2 lat2

/-- `utils::compute_distance` from `utils.h`, with its input validation.
(The C++ `else` branch for an unknown enumerator is unreachable in the
closed two-constructor enumeration.) -/
noncomputable def compute_distance (lon1 lat1 lon2 lat2 : ℝ)
    (metric : DistanceMetric) : Except String ℝ :=
  if 90 < |lat1| ∨ 90 < |lat2| then .error "Latitudes must be in [-90, 90]"
  else if 360 < |lon1| ∨ 360 < |lon2| then
    .error "Longitudes must be in [-360, 360]"
  else .ok (dist_val lon1 lat1 lon2 lat2 metric)

end utils

/-- `static_cast<size_t>` applied to an `int` value, on a 64-bit platform:
reduction modulo `2 ^ 64` (a negative `int` becomes a huge `size_t`). -/
def size_t_cast (n : ℤ) : ℕ :=
  (n % 2 ^ 64).toNat

/-- One row of the list returned by `SpatialIndex::find_nearest_neighbors`
(the C++ `std::tuple<double, double, double, double, double, size_t>`,
in field order). -/
structure NNMapping where
  target_lon : ℝ
  target_lat : ℝ
  source_lon : ℝ
  source_lat : ℝ
  distance_km : ℝ
  target_index : ℕ

/-- One row of the list returned by `SpatialIndex::find_idw_neighbors`
(the C++ `std::tuple<double, double, std::vector<std::tuple<double, double,
double>>, size_t, bool>`, in field order); each neighbor is
`(source_lon, source_lat, distance)`. -/
structure IDWMapping where
  target_lon : ℝ
  target_lat : ℝ
  neighbors : List (ℝ × ℝ × ℝ)
  target_index : ℕ
  is_fallback : Bool

namespace SpatialIndex

open utils

/-- The km conversion both scan loops apply to a winning distance before
reporting it: identity for `HAVERSINE`, otherwise
`d * 111.32 * cos(to_radians(target latitude))`. -/
noncomputable def report_km (cfg : RegridConfig) (target : SpatialData) (d : ℝ) : ℝ :=
  if cfg.distance_metric = .HAVERSINE then d
  else d * 111.32 * Real.cos (to_radians target.gridPoint.latitude)

/-- The exhaustive minimum-tracking scan shared by
`SpatialIndex::find_nearest_neighbors` and the fallback branch of
`SpatialIndex::find_idw_neighbors`: iterate over the sources, keeping the
current best `(source_lon, source_lat, distance)`, replacing it exactly when
the new distance is strictly smaller.  `none` models the initial
`std::numeric_limits<double>::max()` state, below which every computed
distance compares. -/
noncomputable def nn_scan (cfg : RegridConfig) (target : SpatialData) :
    List SpatialData → Option (ℝ × ℝ × ℝ) → Except String (Option (ℝ × ℝ × ℝ))
  | [], best => .ok best
  | s :: rest, best =>
    match compute_distance target.gridPoint.longitude target.gridPoint.latitude
        s.gridPoint.longitude s.gridPoint.latitude cfg.distance_metric with
    | .error e => .error e
    | .ok d =>
      match best with
      | none =>
        nn_scan cfg target rest (some (s.gridPoint.longitude, s.gridPoint.latitude, d))
      | some b =>
        nn_scan cfg target rest
          (some (if d < b.2.2 then (s.gridPoint.longitude, s.gridPoint.latitude, d) else b))

/-- The per-target body of `SpatialIndex::find_nearest_neighbors`: scan all
sources, throw if no winner was found, convert the winning distance to km and
emit the mapping row. -/
noncomputable def nn_target (cfg : RegridConfig) (sources : List SpatialData)
    (t_idx : ℕ) (target : SpatialData) : Except String NNMapping :=
  match nn_scan cfg target sources none with
  | .error e => .error e
  | .ok none => .error "No valid source points found for target"
  | .ok (some (slon, slat, d)) =>
    .ok { target_lon := target.gridPoint.longitude
          target_lat := target.gridPoint.latitude
          source_lon := slon
          source_lat := slat
          distance_km := report_km cfg target d
          target_index := t_idx }

/-- The target loop of `SpatialIndex::find_nearest_neighbors`, accumulating
one mapping per target in input order. -/
noncomputable def nn_loop (cfg : RegridConfig) (sources : List SpatialData) :
    ℕ → List SpatialData → Except String (List NNMapping)
  | _, [] => .ok []
  | i, t :: ts =>
    match nn_target cfg sources i t with
    | .error e => .error e
    | .ok m =>
      match nn_loop cfg sources (i + 1) ts with
      | .error e => .error e
      | .ok ms => .ok (m :: ms)

/-- `SpatialIndex::find_nearest_neighbors`.  The empty-source check is the
one performed by the `SpatialIndex` constructor, without which the index
object cannot exist. -/
noncomputable def find_nearest_neighbors (cfg : RegridConfig)
    (sources targets : List SpatialData) : Except String (List NNMapping) :=
  match sources with
  | [] => .error "Source point list is empty"
  | _ :: _ => nn_loop cfg sources 0 targets

/-- The candidate-collection loop of `SpatialIndex::find_idw_neighbors`:
for each source, compute the configured-metric distance and admit the
candidate `(source_lon, source_lat, distance)` when the distance is within
radius — compared against `km_to_degrees(radius, target latitude)` for
`EUCLIDEAN` (computed inside the loop, so its exceptions propagate from the
first iteration, as in C++), or against `radius` directly for `HAVERSINE`. -/
noncomputable def idw_candidates (cfg : RegridConfig) (target : SpatialData) :
    List SpatialData → Except String (List (ℝ × ℝ × ℝ))
  | [] => .ok []
  | s :: rest =>
    match compute_distance target.gridPoint.longitude target.gridPoint.latitude
        s.gridPoint.longitude s.gridPoint.latitude cfg.distance_metric with
    | .error e => .error e
    | .ok d =>
      match cfg.distance_metric with
      | .EUCLIDEAN =>
        match km_to_degrees cfg.radius target.gridPoint.latitude with
        | .error e => .error e
        | .ok radius_deg =>
          match idw_candidates cfg target rest with
          | .error e => .error e
          | .ok tail =>
            .ok (if d ≤ radius_deg then
              (s.gridPoint.longitude, s.gridPoint.latitude, d) :: tail else tail)
      | .HAVERSINE =>
        match idw_candidates cfg target rest with
        | .error e => .error e
        | .ok tail =>
          .ok (if d ≤ cfg.radius then
            (s.gridPoint.longitude, s.gridPoint.latitude, d) :: tail else tail)

/-- The non-fallback branch of `SpatialIndex::find_idw_neighbors`: sort the
candidates by ascending stored distance (`std::sort`, modelled by the
merge sort on the non-strict comparator), truncate to `max_points`
(`resize`, guarded by the size test, with the `size_t` cast), and for
`EUCLIDEAN` convert each retained distance from degrees to km. -/
noncomputable def idw_sort_truncate (cfg : RegridConfig) (target : SpatialData)
    (cands : List (ℝ × ℝ × ℝ)) : List (ℝ × ℝ × ℝ) :=
  let sorted := cands.mergeSort (fun a b => decide (a.2.2 ≤ b.2.2))
  let truncated :=
    if size_t_cast cfg.max_points < sorted.length then
      sorted.take (size_t_cast cfg.max_points)
    else sorted
  if cfg.distance_metric = .EUCLIDEAN then
    truncated.map (fun nb =>
      (nb.1, nb.2.1, nb.2.2 * 111.32 * Real.cos (to_radians target.gridPoint.latitude)))
  else truncated

/-- The final emptiness check and emission shared by both branches of the
per-target body of `SpatialIndex::find_idw_neighbors`. -/
def idw_emit (target : SpatialData) (t_idx : ℕ) (neighbors : List (ℝ × ℝ × ℝ))
    (is_fallback : Bool) : Except String IDWMapping :=
  match neighbors with
  | [] => .error "No valid source points found for target"
  | _ :: _ =>
    .ok { target_lon := target.gridPoint.longitude
          target_lat := target.gridPoint.latitude
          neighbors := neighbors
          target_index := t_idx
          is_fallback := is_fallback }

/-- The per-target body of `SpatialIndex::find_idw_neighbors`: collect
candidates; if fewer than `min_points` (under the `size_t` cast) were
admitted, clear them and fall back to a nearest-neighbour scan whose single
winner is reported with its distance converted to km; otherwise sort,
truncate and convert.  Either way, throw if the final neighbor list is
empty. -/
noncomputable def idw_target (cfg : RegridConfig) (sources : List SpatialData)
    (t_idx : ℕ) (target : SpatialData) : Except String IDWMapping :=
  match idw_candidates cfg target sources with
  | .error e => .error e
  | .ok cands =>
    if cands.length < size_t_cast cfg.min_points then
      match nn_scan cfg target sources none with
      | .error e => .error e
      | .ok best =>
        idw_emit target t_idx
          (match best with
           | none => []
           | some (slon, slat, d) => [(slon, slat, report_km cfg target d)])
          true
    else
      idw_emit target t_idx (idw_sort_truncate cfg target cands) false

/-- The target loop of `SpatialIndex::find_idw_neighbors`. -/
noncomputable def idw_loop (cfg : RegridConfig) (sources : List SpatialData) :
    ℕ → List SpatialData → Except String (List IDWMapping)
  | _, [] => .ok []
  | i, t :: ts =>
    match idw_target cfg sources i t with
    | .error e => .error e
    | .ok m =>
      match idw_loop cfg sources (i + 1) ts with
      | .error e => .error e
      | .ok ms => .ok (m :: ms)

/-- `SpatialIndex::find_idw_neighbors`.  The empty-source check is the one
performed by the `SpatialIndex` constructor. -/
noncomputable def find_idw_neighbors (cfg : RegridConfig)
    (sources targets : List SpatialData) : Except String (List IDWMapping) :=
  match sources with
  | [] => .error "Source point list is empty"
  | _ :: _ => idw_loop cfg sources 0 targets

end SpatialIndex

namespace Interpolator

open utils

/-- The linear source search shared by
`Interpolator::find_and_copy_source_values` and the inner loop of
`Interpolator::interpolate_idw`: the first source whose longitude and
latitude are within `1e-6` of the reported coordinates and whose
`time_step` equals the target's. -/
noncomputable def find_source_record (sources : List SpatialData) (t_time : ℤ)
    (source_lon source_lat : ℝ) : Option SpatialData :=
  match sources with
  | [] => none
  | src :: rest =>
    if |src.gridPoint.longitude - source_lon| < 1e-6 ∧
        |src.gridPoint.latitude - source_lat| < 1e-6 ∧
        src.time_step = t_time then some src
    else find_source_record rest t_time source_lon source_lat

/-- `Interpolator::find_and_copy_source_values`: resolve the source record
and copy its value vector (`none` models the `false` return, where the
output record is not emitted). -/
noncomputable def find_and_copy_source_values (sources : List SpatialData)
    (target : SpatialData) (source_lon source_lat : ℝ) : Option (List ℝ) :=
  (find_source_record sources target.time_step source_lon source_lat).map
    SpatialData.values

/-- The weight assigned to a neighbor at the stored distance in
`Interpolator::interpolate_idw`: `1 / distance ^ power` when
`distance > 1e-6`, else the finite cap `1e6`. -/
noncomputable def idw_weight (cfg : RegridConfig) (distance : ℝ) : ℝ :=
  if 1e-6 < distance then 1 / distance ^ cfg.power else 1e6

/-- The neighbor-resolution loop of `Interpolator::interpolate_idw`:
walk the mapping's neighbors in order, skip the ones whose source record
cannot be resolved, and collect the parallel weight and source lists. -/
noncomputable def idw_collect (cfg : RegridConfig) (sources : List SpatialData)
    (target : SpatialData) : List (ℝ × ℝ × ℝ) → List ℝ × List SpatialData
  | [] => ([], [])
  | (slon, slat, d) :: rest =>
    match find_source_record sources target.time_step slon slat with
    | none => idw_collect cfg sources target rest
    | some src =>
      let tail := idw_collect cfg sources target rest
      (idw_weight cfg d :: tail.1, src :: tail.2)

/-- The mapping loop of `Interpolator::interpolate_nearest_neighbor`:
check the target index, resolve the reported source, copy its values into a
record shaped like the target, and silently drop the target on resolution
failure. -/
noncomputable def interpolate_nn_loop (sources targets : List SpatialData) :
    List NNMapping → Except String (List SpatialData)
  | [] => .ok []
  | m :: ms =>
    if h : m.target_index < targets.length then
      let target := targets.get ⟨m.target_index, h⟩
      match find_and_copy_source_values sources target m.source_lon m.source_lat with
      | some vals =>
        match interpolate_nn_loop sources targets ms with
        | .error e => .error e
        | .ok res => .ok ({ target with values := vals } :: res)
      | none => interpolate_nn_loop sources targets ms
    else .error "Invalid target index in NN mapping"

/-- `Interpolator::interpolate_nearest_neighbor`: run the mapping loop and
throw if no record at all was produced. -/
noncomputable def interpolate_nearest_neighbor (sources targets : List SpatialData)
    (mappings : List NNMapping) : Except String (List SpatialData) :=
  match interpolate_nn_loop sources targets mappings with
  | .error e => .error e
  | .ok [] => .error "No points interpolated in NN mode"
  | .ok (r :: rs) => .ok (r :: rs)

/-- The mapping loop of `Interpolator::interpolate_idw`: per mapping, check
the target index; a fallback mapping must have exactly one neighbor and is
treated like nearest neighbour; otherwise resolve the neighbors, skip the
target when none resolved, and emit the weighted mean (accumulated component
by component over a zero-initialised vector of the first resolved source's
length, then divided by the weight sum). -/
noncomputable def interpolate_idw_loop (cfg : RegridConfig)
    (sources targets : List SpatialData) :
    List IDWMapping → Except String (List SpatialData)
  | [] => .ok []
  | m :: ms =>
    if h : m.target_index < targets.length then
      let target := targets.get ⟨m.target_index, h⟩
      if m.is_fallback then
        match m.neighbors with
        | [(slon, slat, _)] =>
          match find_and_copy_source_values sources target slon slat with
          | some vals =>
            match interpolate_idw_loop cfg sources targets ms with
            | .error e => .error e
            | .ok res => .ok ({ target with values := vals } :: res)
          | none => interpolate_idw_loop cfg sources targets ms
        | _ => .error "Invalid fallback mapping: expected one source point"
      else
        match idw_collect cfg sources target m.neighbors with
        | (_, []) => interpolate_idw_loop cfg sources targets ms
        | (weights, s0 :: srest) =>
          let sums := (weights.zip (s0 :: srest)).foldl
            (fun acc p => List.zipWith (fun a v => a + p.1 * v) acc p.2.values)
            (List.replicate s0.values.length 0)
          let vals := sums.map (fun v => v / weights.sum)
          match interpolate_idw_loop cfg sources targets ms with
          | .error e => .error e
          | .ok res => .ok ({ target with values := vals } :: res)
    else .error "Invalid target index in IDW mapping"

/-- `Interpolator::interpolate_idw`: run the mapping loop and throw if no
record at all was produced. -/
noncomputable def interpolate_idw (cfg : RegridConfig)
    (sources targets : List SpatialData) (mappings : List IDWMapping) :
    Except String (List SpatialData) :=
  match interpolate_idw_loop cfg sources targets mappings with
  | .error e => .error e
  | .ok [] => .error "No points interpolated in IDW mode"
  | .ok (r :: rs) => .ok (r :: rs)

/-- `Interpolator::interpolate`, including the `Interpolator` constructor
checks (non-empty source list, uniform value-vector sizes), without which
the interpolator object cannot exist.  (The C++ `else` branch for an
unknown method enumerator is unreachable in the closed enumeration.) -/
noncomputable def interpolate (cfg : RegridConfig)
    (sources targets : List SpatialData) (nn_mappings : List NNMapping)
    (idw_mappings : List IDWMapping) : Except String (List SpatialData) :=
  match sources with
  | [] => .error "Source point list is empty"
  | s0 :: rest =>
    if (s0 :: rest).all (fun p => p.values.length == s0.values.length) then
      match cfg.interp_method with
      | .NEAREST_NEIGHBOR =>
        interpolate_nearest_neighbor sources targets nn_mappings
      | .INVERSE_DISTANCE_WEIGHTED =>
        interpolate_idw cfg sources targets idw_mappings
    else .error "Inconsistent value sizes in source points"

end Interpolator

namespace RegridConfigBuilder

/-- `RegridConfigBuilder::set_interpolation`. -/
def set_interpolation (cfg : RegridConfig) (method : InterpolationMethod) :
    Except String RegridConfig :=
  .ok { cfg with interp_method := method }

/-- `RegridConfigBuilder::set_distance_metric`. -/
def set_distance_metric (cfg : RegridConfig) (metric : DistanceMetric) :
    Except String RegridConfig :=
  .ok { cfg with distance_metric := metric }

/-- `RegridConfigBuilder::set_data_layout`. -/
def set_data_layout (cfg : RegridConfig) (layout : DataLayout) :
    Except String RegridConfig :=
  .ok { cfg with data_layout := layout }

/-- `RegridConfigBuilder::set_radius`: rejects a negative radius. -/
noncomputable def set_radius (cfg : RegridConfig) (radius : ℝ) :
    Except String RegridConfig :=
  if radius < 0 then .error "Radius must be non-negative"
  else .ok { cfg with radius := radius }

/-- `RegridConfigBuilder::set_power`: rejects a non-positive power. -/
noncomputable def set_power (cfg : RegridConfig) (power : ℝ) :
    Except String RegridConfig :=
  if power ≤ 0 then .error "Power must be positive"
  else .ok { cfg with power := power }

/-- `RegridConfigBuilder::set_max_points`: rejects a non-positive value and
silently lowers `min_points` to the new `max_points` when it would exceed
it. -/
def set_max_points (cfg : RegridConfig) (max_points : ℤ) :
    Except String RegridConfig :=
  if max_points ≤ 0 then .error "Max points must be positive"
  else .ok { cfg with
    max_points := max_points
    min_points := if max_points < cfg.min_points then max_points else cfg.min_points }

/-- `RegridConfigBuilder::set_min_points`: rejects a non-positive value and
one exceeding the current `max_points`. -/
def set_min_points (cfg : RegridConfig) (min_points : ℤ) :
    Except String RegridConfig :=
  if min_points ≤ 0 then .error "Min points must be positive"
  else if cfg.max_points < min_points then
    .error "Min points cannot exceed max points"
  else .ok { cfg with min_points := min_points }

/-- `RegridConfigBuilder::set_adjust_longitude`. -/
def set_adjust_longitude (cfg : RegridConfig) (adjust : Bool) :
    Except String RegridConfig :=
  .ok { cfg with adjust_longitude := adjust }

/-- `RegridConfigBuilder::set_precision`: rejects a negative precision. -/
def set_precision (cfg : RegridConfig) (precision : ℤ) :
    Except String RegridConfig :=
  if precision < 0 then .error "Precision must be non-negative"
  else .ok { cfg with precision := precision }

/-- `RegridConfigBuilder::set_verbose`. -/
def set_verbose (cfg : RegridConfig) (verbose : Bool) :
    Except String RegridConfig :=
  .ok { cfg with verbose := verbose }

/-- `RegridConfigBuilder::set_write_mappings`. -/
def set_write_mappings (cfg : RegridConfig) (write : Bool) :
    Except String RegridConfig :=
  .ok { cfg with write_mappings := write }

/-- `RegridConfigBuilder::set_nn_mappings_file`: rejects an empty name. -/
def set_nn_mappings_file (cfg : RegridConfig) (filename : String) :
    Except String RegridConfig :=
  if filename = "" then
    .error "Nearest Neighbor mappings filename cannot be empty"
  else .ok { cfg with nn_mappings_file := filename }

/-- `RegridConfigBuilder::set_idw_mappings_file`: rejects an empty name. -/
def set_idw_mappings_file (cfg : RegridConfig) (filename : String) :
    Except String RegridConfig :=
  if filename = "" then .error "IDW mappings filename cannot be empty"
  else .ok { cfg with idw_mappings_file := filename }

/-- `RegridConfigBuilder::set_chunk_size`: rejects zero. -/
def set_chunk_size (cfg : RegridConfig) (chunk_size : ℕ) :
    Except String RegridConfig :=
  if chunk_size = 0 then .error "Chunk size must be positive"
  else .ok { cfg with chunk_size := chunk_size }

/-- `RegridConfigBuilder::set_output_path`. -/
def set_output_path (cfg : RegridConfig) (path : String) :
    Except String RegridConfig :=
  .ok { cfg with output_path := path }

/-- One call to one of the builder's setters, with its argument. -/
inductive SetterCall where
  | interpolation (method : InterpolationMethod)
  | metric (metric : DistanceMetric)
  | layout (layout : DataLayout)
  | radius (radius : ℝ)
  | power (power : ℝ)
  | maxPoints (max_points : ℤ)
  | minPoints (min_points : ℤ)
  | adjustLon (adjust : Bool)
  | precisionOf (precision : ℤ)
  | verboseFlag (verbose : Bool)
  | writeMappings (write : Bool)
  | nnFile (filename : String)
  | idwFile (filename : String)
  | chunkSize (chunk_size : ℕ)
  | outputPath (path : String)

/-- Dispatch one setter call on the builder's current configuration. -/
noncomputable def apply_setter (cfg : RegridConfig) :
    SetterCall → Except String RegridConfig
  | .interpolation m => set_interpolation cfg m
  | .metric m => set_distance_metric cfg m
  | .layout l => set_data_layout cfg l
  | .radius r => set_radius cfg r
  | .power p => set_power cfg p
  | .maxPoints n => set_max_points cfg n
  | .minPoints n => set_min_points cfg n
  | .adjustLon b => set_adjust_longitude cfg b
  | .precisionOf p => set_precision cfg p
  | .verboseFlag b => set_verbose cfg b
  | .writeMappings b => set_write_mappings cfg b
  | .nnFile s => set_nn_mappings_file cfg s
  | .idwFile s => set_idw_mappings_file cfg s
  | .chunkSize n => set_chunk_size cfg n
  | .outputPath s => set_output_path cfg s

/-- A chain of builder setter calls starting from some configuration: the
first throwing setter aborts the chain, exactly as the exceptions do in
C++. -/
noncomputable def apply_setters (cfg : RegridConfig) :
    List SetterCall → Except String RegridConfig
  | [] => .ok cfg
  | c :: cs =>
    match apply_setter cfg c with
    | .error e => .error e
    | .ok cfg2 => apply_setters cfg2 cs

/-- `RegridConfigBuilder::build`: returns the accumulated configuration
unchanged. -/
def build (cfg : RegridConfig) : RegridConfig :=
  cfg

/-- The range constraints the builder enforces on every configuration it can
produce: non-negative radius, positive power, positive `max_points` and
`min_points` with `min_points ≤ max_points`, non-negative precision,
non-empty mapping filenames and a positive chunk size. -/
def GoodConfig (cfg : RegridConfig) : Prop :=
  0 ≤ cfg.radius ∧ 0 < cfg.power ∧ 0 < cfg.max_points ∧ 0 < cfg.min_points ∧
    cfg.min_points ≤ cfg.max_points ∧ 0 ≤ cfg.precision ∧
    cfg.nn_mappings_file ≠ "" ∧ cfg.idw_mappings_file ≠ "" ∧ 0 < cfg.chunk_size

end RegridConfigBuilder

/-! ### Specification-level definitions

Pure views of the code above, used to state the claims: the coordinate
preconditions, the metric distance as a total function, the pure
minimum-tracking scan, the admission test of the IDW candidate loop, and
the resolved-neighbor list of the IDW interpolation loop. -/

/-- The coordinate ranges accepted by `utils::compute_distance` (the
data-model invariant of the spec: `|lat| ≤ 90`, `|lon| ≤ 360`). -/
def valid_point (p : SpatialData) : Prop :=
  |p.gridPoint.latitude| ≤ 90 ∧ |p.gridPoint.longitude| ≤ 360

/-- The configured-metric distance from target `t` to source `s` as a total
function (the value `utils::compute_distance` returns on valid input, in
the target-first argument order used by the spatial index). -/
noncomputable def dist_pt (cfg : RegridConfig) (t s : SpatialData) : ℝ :=
  utils.dist_val t.gridPoint.longitude t.gridPoint.latitude
    s.gridPoint.longitude s.gridPoint.latitude cfg.distance_metric

/-- The `(source_lon, source_lat, distance)` entry the scans build for a
source. -/
noncomputable def scan_entry (cfg : RegridConfig) (t s : SpatialData) : ℝ × ℝ × ℝ :=
  (s.gridPoint.longitude, s.gridPoint.latitude, dist_pt cfg t s)

/-- The pure content of `SpatialIndex.nn_scan` once every distance
computation is known to succeed. -/
noncomputable def scan_pure (cfg : RegridConfig) (t : SpatialData) :
    List SpatialData → Option (ℝ × ℝ × ℝ) → Option (ℝ × ℝ × ℝ)
  | [], best => best
  | s :: rest, best =>
    match best with
    | none => scan_pure cfg t rest (some (scan_entry cfg t s))
    | some b =>
      scan_pure cfg t rest
        (some (if dist_pt cfg t s < b.2.2 then scan_entry cfg t s else b))

/-- The admission threshold of the IDW candidate loop, in the metric's
native unit: `radius` (km) for `HAVERSINE`, `km_to_degrees(radius, target
latitude)` (degrees) for `EUCLIDEAN`. -/
noncomputable def idw_threshold (cfg : RegridConfig) (t : SpatialData) : ℝ :=
  match cfg.distance_metric with
  | .HAVERSINE => cfg.radius
  | .EUCLIDEAN => utils.km_to_degrees_val cfg.radius t.gridPoint.latitude

/-- A source passes the metric-specific admission test of the IDW candidate
loop for target `t`. -/
noncomputable def admitted (cfg : RegridConfig) (t s : SpatialData) : Prop :=
  dist_pt cfg t s ≤ idw_threshold cfg t

/-- The number of sources passing the admission test for target `t`. -/
noncomputable def count_admitted (cfg : RegridConfig) (sources : List SpatialData)
    (t : SpatialData) : ℕ :=
  (sources.filter (fun s => decide (admitted cfg t s))).length

/-- Source `sj` at position `j` is the winner of the exhaustive scan for
target `t`: it attains the minimum configured-metric distance over all
sources, and every earlier source is at a strictly larger distance
(first-seen tie-break, as the scan only replaces on a strict decrease). -/
noncomputable def FirstSeenNearest (cfg : RegridConfig) (sources : List SpatialData)
    (t : SpatialData) (j : ℕ) (sj : SpatialData) : Prop :=
  sources[j]? = some sj ∧
    (∀ s ∈ sources, dist_pt cfg t sj ≤ dist_pt cfg t s) ∧
    (∀ k sk, k < j → sources[k]? = some sk → dist_pt cfg t sj < dist_pt cfg t sk)

/-- What `SpatialIndex::find_nearest_neighbors` returns: one mapping per
target, in target order, carrying the target's coordinates, the coordinates
of the first-seen nearest source, the winning distance converted to km, and
the target's index. -/
noncomputable def NNResultSpec (cfg : RegridConfig)
    (sources targets : List SpatialData) (ms : List NNMapping) : Prop :=
  ms.length = targets.length ∧
    ∀ i t, targets[i]? = some t →
      ∃ j sj, FirstSeenNearest cfg sources t j sj ∧
        ms[i]? = some
          ({ target_lon := t.gridPoint.longitude
             target_lat := t.gridPoint.latitude
             source_lon := sj.gridPoint.longitude
             source_lat := sj.gridPoint.latitude
             distance_km := SpatialIndex.report_km cfg t (dist_pt cfg t sj)
             target_index := i } : NNMapping)

/-- The fallback behaviour of `SpatialIndex::find_idw_neighbors`: one
mapping per target, in target order; its `is_fallback` flag is set exactly
when fewer than `min_points` sources pass the admission test, and a
fallback mapping holds exactly one neighbor — the first-seen nearest
source, its distance reported in km. -/
noncomputable def IDWFallbackSpec (cfg : RegridConfig)
    (sources targets : List SpatialData) (ms : List IDWMapping) : Prop :=
  ms.length = targets.length ∧
    ∀ i t, targets[i]? = some t →
      ∃ m : IDWMapping, ms[i]? = some m ∧ m.target_index = i ∧
        m.target_lon = t.gridPoint.longitude ∧ m.target_lat = t.gridPoint.latitude ∧
        (m.is_fallback = true ↔ (count_admitted cfg sources t : ℤ) < cfg.min_points) ∧
        (m.is_fallback = true →
          ∃ j sj, FirstSeenNearest cfg sources t j sj ∧
            m.neighbors = [(sj.gridPoint.longitude, sj.gridPoint.latitude,
              SpatialIndex.report_km cfg t (dist_pt cfg t sj))])

/-- The invariant of a non-fallback IDW mapping: between 1 and `max_points`
neighbors, sorted by ascending stored distance, every stored distance
non-negative and at most `radius` once expressed in km (the stored distance
is km directly for `HAVERSINE`, and is the raw-degree distance multiplied
by `111.32 * cos(to_radians(target latitude))` for `EUCLIDEAN`). -/
def IDWNonFallbackInvariant (cfg : RegridConfig) (m : IDWMapping) : Prop :=
  1 ≤ m.neighbors.length ∧ (m.neighbors.length : ℤ) ≤ cfg.max_points ∧
    List.Sorted (· ≤ ·) (m.neighbors.map (fun nb => nb.2.2)) ∧
    ∀ nb ∈ m.neighbors, 0 ≤ nb.2.2 ∧ nb.2.2 ≤ cfg.radius

/-- The weighted, resolved neighbor list the IDW interpolation loop works
with: neighbors whose source record resolves, paired with their weights, in
mapping order. -/
noncomputable def resolved_neighbors (cfg : RegridConfig)
    (sources : List SpatialData) (t : SpatialData) (nbrs : List (ℝ × ℝ × ℝ)) :
    List (ℝ × SpatialData) :=
  nbrs.filterMap (fun nb =>
    (Interpolator.find_source_record sources t.time_step nb.1 nb.2.1).map
      (fun src => (Interpolator.idw_weight cfg nb.2.2, src)))

/-- The hypotheses of the (amended) round-trip property: valid coordinates;
zero configured-metric distance forces coordinate equality (automatic for
`EUCLIDEAN`); sources sharing a `time_step` that lie within the `1e-6`
resolution tolerance in both coordinates carry equal value vectors; and
value vectors have uniform length. -/
noncomputable def RoundTripHyps (cfg : RegridConfig) (sources : List SpatialData) : Prop :=
  (∀ s ∈ sources, valid_point s) ∧
    (∀ t ∈ sources, ∀ s ∈ sources, dist_pt cfg t s = 0 → s.gridPoint = t.gridPoint) ∧
    (∀ s1 ∈ sources, ∀ s2 ∈ sources, s1.time_step = s2.time_step →
      |s1.gridPoint.longitude - s2.gridPoint.longitude| < 1e-6 →
      |s1.gridPoint.latitude - s2.gridPoint.latitude| < 1e-6 →
      s1.values = s2.values) ∧
    (∀ s1 ∈ sources, ∀ s2 ∈ sources, s1.values.length = s2.values.length)

/-! ### Concrete scenario constants used by the witnesses -/

/-- A Euclidean IDW configuration: radius 100 km, power 2, `max_points` 5,
`min_points` 1. -/
def cfg_a : RegridConfig :=
  { default_config with
    interp_method := .INVERSE_DISTANCE_WEIGHTED
    distance_metric := .EUCLIDEAN
    radius := 100
    power := 2
    max_points := 5
    min_points := 1 }

/-- A source at the origin, time step 1, single value 10. -/
def pt_origin : SpatialData :=
  ⟨⟨0, 0⟩, 1, [10]⟩

/-- A target at longitude 3, latitude 0, time step 1. -/
def pt_east : SpatialData :=
  ⟨⟨3, 0⟩, 1, [0]⟩

/-- The Euclidean nearest-neighbour configuration used by witnesses. -/
def cfg_nn : RegridConfig :=
  { cfg_a with interp_method := .NEAREST_NEIGHBOR }

/-- The Euclidean IDW configuration with `max_points = min_points = 1` used
by the round-trip witness. -/
def cfg_rt : RegridConfig :=
  { cfg_a with max_points := 1, min_points := 1 }

/-- A target at the origin with time step 2 (no source shares its time
step). -/
def pt_time2 : SpatialData :=
  ⟨⟨0, 0⟩, 2, [0]⟩

/-- The configuration of the round-trip counterexample: Euclidean IDW,
radius 250 km, power 1, `min_points = max_points = 2`. -/
def cfg_cx : RegridConfig :=
  { default_config with
    interp_method := .INVERSE_DISTANCE_WEIGHTED
    distance_metric := .EUCLIDEAN
    radius := 250
    power := 1
    max_points := 2
    min_points := 2 }

/-- The point set of the round-trip counterexample, used both as sources
and as targets: two points one degree of longitude apart on the equator,
with values 0 and 100. -/
def pts_cx : List SpatialData :=
  [⟨⟨0, 0⟩, 1, [0]⟩, ⟨⟨1, 0⟩, 1, [100]⟩]

/-! ### Basic facts about the geodesy primitives -/

lemma to_radians_zero : utils.to_radians 0 = 0 := by
  simp [utils.to_radians]

lemma cos_to_radians_zero : Real.cos (utils.to_radians 0) = 1 := by
  rw [to_radians_zero, Real.cos_zero]

lemma cos_to_radians_nonneg {lat : ℝ} (h : |lat| ≤ 90) :
    0 ≤ Real.cos (utils.to_radians lat) := by
  rw [abs_le] at h
  apply Real.cos_nonneg_of_mem_Icc
  unfold utils.to_radians
  constructor
  · nlinarith [Real.pi_pos]
  · nlinarith [Real.pi_pos]

lemma atan2_nn_nonneg {y x : ℝ} (hy : 0 ≤ y) (hx : 0 ≤ x) :
    0 ≤ utils.atan2_nn y x := by
  unfold utils.atan2_nn
  split_ifs with h1 h2
  · exact le_refl 0
  · linarith [Real.pi_pos]
  · calc (0 : ℝ) = Real.arctan 0 := Real.arctan_zero.symm
      _ ≤ _ := Real.arctan_strictMono.monotone (div_nonneg hy hx)

lemma haversine_km_nonneg (lon1 lat1 lon2 lat2 : ℝ) :
    0 ≤ utils.haversine_km lon1 lat1 lon2 lat2 := by
  unfold utils.haversine_km
  have h := @atan2_nn_nonneg (Real.sqrt
      (Real.sin (utils.to_radians (lat2 - lat1) / 2) *
          Real.sin (utils.to_radians (lat2 - lat1) / 2) +
        Real.cos (utils.to_radians lat1) * Real.cos (utils.to_radians lat2) *
          Real.sin (utils.to_radians (lon2 - lon1) / 2) *
          Real.sin (utils.to_radians (lon2 - lon1) / 2)))
    (Real.sqrt (1 -
      (Real.sin (utils.to_radians (lat2 - lat1) / 2) *
          Real.sin (utils.to_radians (lat2 - lat1) / 2) +
        Real.cos (utils.to_radians lat1) * Real.cos (utils.to_radians lat2) *
          Real.sin (utils.to_radians (lon2 - lon1) / 2) *
          Real.sin (utils.to_radians (lon2 - lon1) / 2))))
    (Real.sqrt_nonneg _) (Real.sqrt_nonneg _)
  linarith

lemma euclidean_deg_nonneg (lon1 lat1 lon2 lat2 : ℝ) :
    0 ≤ utils.euclidean_deg lon1 lat1 lon2 lat2 :=
  Real.sqrt_nonneg _

lemma dist_val_nonneg (lon1 lat1 lon2 lat2 : ℝ) (metric : DistanceMetric) :
    0 ≤ utils.dist_val lon1 lat1 lon2 lat2 metric := by
  cases metric
  · exact euclidean_deg_nonneg lon1 lat1 lon2 lat2
  · exact haversine_km_nonneg lon1 lat1 lon2 lat2

lemma dist_pt_nonneg (cfg : RegridConfig) (t s : SpatialData) :
    0 ≤ dist_pt cfg t s :=
  dist_val_nonneg _ _ _ _ _

lemma haversine_km_self (lon lat : ℝ) : utils.haversine_km lon lat lon lat = 0 := by
  unfold utils.haversine_km utils.atan2_nn
  simp [sub_self, to_radians_zero]

lemma euclidean_deg_self (lon lat : ℝ) : utils.euclidean_deg lon lat lon lat = 0 := by
  unfold utils.euclidean_deg
  simp

lemma dist_pt_self (cfg : RegridConfig) (t : SpatialData) : dist_pt cfg t t = 0 := by
  unfold dist_pt utils.dist_val
  cases h : cfg.distance_metric
  · exact euclidean_deg_self _ _
  · exact haversine_km_self _ _

lemma euclidean_deg_eq_zero_imp {lon1 lat1 lon2 lat2 : ℝ}
    (h : utils.euclidean_deg lon1 lat1 lon2 lat2 = 0) : lon2 = lon1 ∧ lat2 = lat1 := by
  unfold utils.euclidean_deg at h
  have h0 : (lon2 - lon1) * (lon2 - lon1) + (lat2 - lat1) * (lat2 - lat1) = 0 := by
    have := Real.sqrt_eq_zero'.mp h
    nlinarith [sq_nonneg (lon2 - lon1), sq_nonneg (lat2 - lat1)]
  constructor <;> nlinarith [sq_nonneg (lon2 - lon1), sq_nonneg (lat2 - lat1)]

lemma compute_distance_eq_ok {lon1 lat1 lon2 lat2 : ℝ} {metric : DistanceMetric}
    (h1 : |lat1| ≤ 90) (h2 : |lat2| ≤ 90) (h3 : |lon1| ≤ 360) (h4 : |lon2| ≤ 360) :
    utils.compute_distance lon1 lat1 lon2 lat2 metric =
      .ok (utils.dist_val lon1 lat1 lon2 lat2 metric) := by
  unfold utils.compute_distance
  rw [if_neg (by push_neg; exact ⟨h1, h2⟩), if_neg (by push_neg; exact ⟨h3, h4⟩)]

lemma compute_distance_ok_inv {lon1 lat1 lon2 lat2 : ℝ} {metric : DistanceMetric}
    {d : ℝ} (h : utils.compute_distance lon1 lat1 lon2 lat2 metric = .ok d) :
    |lat1| ≤ 90 ∧ |lat2| ≤ 90 ∧ |lon1| ≤ 360 ∧ |lon2| ≤ 360 ∧
      d = utils.dist_val lon1 lat1 lon2 lat2 metric := by
  unfold utils.compute_distance at h
  split_ifs at h with ha hb
  push_neg at ha hb
  simp only [Except.ok.injEq] at h
  exact ⟨ha.1, ha.2, hb.1, hb.2, h.symm⟩

lemma km_to_degrees_eq_ok {km lat : ℝ} (hk : 0 ≤ km) (hl : |lat| ≤ 90) :
    utils.km_to_degrees km lat = .ok (utils.km_to_degrees_val km lat) := by
  unfold utils.km_to_degrees
  rw [if_neg (by linarith), if_neg (by linarith)]

lemma km_to_degrees_ok_inv {km lat r : ℝ}
    (h : utils.km_to_degrees km lat = .ok r) :
    0 ≤ km ∧ |lat| ≤ 90 ∧ r = utils.km_to_degrees_val km lat := by
  unfold utils.km_to_degrees at h
  split_ifs at h with ha hb
  simp only [Except.ok.injEq] at h
  exact ⟨by linarith, by linarith, h.symm⟩

lemma cos_floor_pos {lat : ℝ} (h : |lat| ≤ 90) : 0 < utils.cos_floor lat := by
  have hc := cos_to_radians_nonneg h
  unfold utils.cos_floor
  split_ifs with h1
  · norm_num
  · rw [abs_of_nonneg hc] at h1
    push_neg at h1
    linarith

lemma cos_le_cos_floor {lat : ℝ} (h : |lat| ≤ 90) :
    Real.cos (utils.to_radians lat) ≤ utils.cos_floor lat := by
  have hc := cos_to_radians_nonneg h
  unfold utils.cos_floor
  split_ifs with h1
  · rw [abs_of_nonneg hc] at h1
    linarith
  · exact le_refl _

lemma km_to_degrees_val_nonneg {km lat : ℝ} (hk : 0 ≤ km) (hl : |lat| ≤ 90) :
    0 ≤ utils.km_to_degrees_val km lat := by
  have := cos_floor_pos hl
  unfold utils.km_to_degrees_val
  positivity

/-- A raw-degree distance admitted against `km_to_degrees(radius, lat)`
stays at most `radius` once converted back to km with the unfloored
cosine. -/
lemma euclid_conv_within_radius {d radius lat : ℝ} (hd : 0 ≤ d) (hlat : |lat| ≤ 90)
    (hr : 0 ≤ radius) (hle : d ≤ utils.km_to_degrees_val radius lat) :
    d * 111.32 * Real.cos (utils.to_radians lat) ≤ radius := by
  have hf := cos_floor_pos hlat
  have hcf := cos_le_cos_floor hlat
  have hc := cos_to_radians_nonneg hlat
  unfold utils.km_to_degrees_val at hle
  calc d * 111.32 * Real.cos (utils.to_radians lat)
      = d * (111.32 * Real.cos (utils.to_radians lat)) := by ring
    _ ≤ radius / (111.32 * utils.cos_floor lat) *
        (111.32 * Real.cos (utils.to_radians lat)) := by
        apply mul_le_mul_of_nonneg_right hle (by positivity)
    _ = radius * Real.cos (utils.to_radians lat) / utils.cos_floor lat := by
        field_simp
        ring
    _ ≤ radius * utils.cos_floor lat / utils.cos_floor lat := by
        exact (div_le_div_right hf).mpr (mul_le_mul_of_nonneg_left hcf hr)
    _ = radius := by field_simp

/-! ### Claim theorems C6 and C9, with witnesses -/

/-- C6: `km_to_degrees(km, lat)` fails with `InvalidArgument` exactly when
`km < 0` or `|lat| > 90`, and otherwise returns
`km / (111.32 * max(cos(to_radians lat), 1e-10))` — the cosine floored at
`1e-10` — so the divisor is nonzero and the conversion is saturated, not
undefined, at the poles. -/
theorem km_to_degrees_claim (km lat : ℝ) :
    ((∃ e, utils.km_to_degrees km lat = .error e) ↔ km < 0 ∨ 90 < |lat|) ∧
    (¬(km < 0 ∨ 90 < |lat|) →
      utils.km_to_degrees km lat =
        .ok (km / (111.32 * max (Real.cos (utils.to_radians lat)) 1e-10)) ∧
      111.32 * max (Real.cos (utils.to_radians lat)) 1e-10 ≠ 0) := by
  constructor
  · constructor
    · intro ⟨e, he⟩
      by_contra hcon
      push_neg at hcon
      rw [km_to_degrees_eq_ok (by linarith [hcon.1]) (by linarith [hcon.2])] at he
      exact absurd he (by simp)
    · intro h
      unfold utils.km_to_degrees
      rcases h with h | h
      · refine ⟨"Distance in km must be non-negative", ?_⟩
        rw [if_pos h]
      · by_cases hk : km < 0
        · refine ⟨"Distance in km must be non-negative", ?_⟩
          rw [if_pos hk]
        · refine ⟨"Latitude must be in [-90, 90]", ?_⟩
          rw [if_neg hk, if_pos h]
  · intro h
    push_neg at h
    have hlat : |lat| ≤ 90 := h.2
    have hc := cos_to_radians_nonneg hlat
    have hfloor : utils.cos_floor lat = max (Real.cos (utils.to_radians lat)) 1e-10 := by
      unfold utils.cos_floor
      rw [abs_of_nonneg hc]
      split_ifs with h1
      · rw [max_eq_right (by linarith)]
      · rw [max_eq_left (by push_neg at h1; linarith)]
    constructor
    · rw [km_to_degrees_eq_ok h.1 hlat]
      unfold utils.km_to_degrees_val
      rw [hfloor]
    · rw [← hfloor]
      have := cos_floor_pos hlat
      positivity

/-- Witness for C6 at the pole: `km_to_degrees 100 90` succeeds with a
nonzero divisor. -/
theorem km_to_degrees_claim_witness :
    utils.km_to_degrees 100 90 =
      .ok (100 / (111.32 * max (Real.cos (utils.to_radians 90)) 1e-10)) ∧
    111.32 * max (Real.cos (utils.to_radians 90)) 1e-10 ≠ 0 :=
  (km_to_degrees_claim 100 90).2 (by norm_num)

/-- C9: `adjust_longitude` terminates on every (finite) real input — it is
defined here by well-founded recursion on the number of remaining ±360
shifts — and its result lies in [-180, 180]. -/
theorem adjust_longitude_claim (x : ℝ) :
    -180 ≤ utils.adjust_longitude x ∧ utils.adjust_longitude x ≤ 180 := by
  have hdown : ∀ lon : ℝ, utils.adjust_step_down lon ≤ 180 := by
    intro lon
    induction lon using utils.adjust_step_down.induct with
    | case1 lon h ih =>
      rw [utils.adjust_step_down, if_pos h]
      exact ih
    | case2 lon h =>
      rw [utils.adjust_step_down, if_neg h]
      linarith [not_lt.mp h]
  have hup : ∀ lon : ℝ, lon ≤ 180 →
      -180 ≤ utils.adjust_step_up lon ∧ utils.adjust_step_up lon ≤ 180 := by
    intro lon h
    induction lon using utils.adjust_step_up.induct with
    | case1 lon hlt ih =>
      rw [utils.adjust_step_up, if_pos hlt]
      exact ih (by linarith)
    | case2 lon hge =>
      rw [utils.adjust_step_up, if_neg hge]
      exact ⟨not_lt.mp hge, h⟩
  unfold utils.adjust_longitude
  exact hup _ (hdown x)

/-! ### Builder invariants (claims C7 and C10) -/

lemma good_default : RegridConfigBuilder.GoodConfig default_config := by
  unfold RegridConfigBuilder.GoodConfig default_config
  refine ⟨by norm_num, by norm_num, by norm_num, by norm_num, by norm_num,
    by norm_num, by decide, by decide, by norm_num⟩

lemma apply_setters_good :
    ∀ (calls : List RegridConfigBuilder.SetterCall) {c c2 : RegridConfig},
      RegridConfigBuilder.GoodConfig c →
      RegridConfigBuilder.apply_setters c calls = .ok c2 →
      RegridConfigBuilder.GoodConfig c2 := by
  have step : ∀ {c c2 : RegridConfig} {call : RegridConfigBuilder.SetterCall},
      RegridConfigBuilder.GoodConfig c →
      RegridConfigBuilder.apply_setter c call = .ok c2 →
      RegridConfigBuilder.GoodConfig c2 := by
    intro c c2 call hg h
    obtain ⟨g1, g2, g3, g4, g5, g6, g7, g8, g9⟩ := hg
    cases call with
    | interpolation m =>
      simp only [RegridConfigBuilder.apply_setter] at h
      unfold RegridConfigBuilder.set_interpolation at h
      injection h with h
      subst h
      exact ⟨g1, g2, g3, g4, g5, g6, g7, g8, g9⟩
    | metric m =>
      simp only [RegridConfigBuilder.apply_setter] at h
      unfold RegridConfigBuilder.set_distance_metric at h
      injection h with h
      subst h
      exact ⟨g1, g2, g3, g4, g5, g6, g7, g8, g9⟩
    | layout l =>
      simp only [RegridConfigBuilder.apply_setter] at h
      unfold RegridConfigBuilder.set_data_layout at h
      injection h with h
      subst h
      exact ⟨g1, g2, g3, g4, g5, g6, g7, g8, g9⟩
    | radius r =>
      simp only [RegridConfigBuilder.apply_setter] at h
      unfold RegridConfigBuilder.set_radius at h
      split_ifs at h with h1
      injection h with h
      subst h
      exact ⟨not_lt.mp h1, g2, g3, g4, g5, g6, g7, g8, g9⟩
    | power p =>
      simp only [RegridConfigBuilder.apply_setter] at h
      unfold RegridConfigBuilder.set_power at h
      split_ifs at h with h1
      injection h with h
      subst h
      exact ⟨g1, not_le.mp h1, g3, g4, g5, g6, g7, g8, g9⟩
    | maxPoints n =>
      simp only [RegridConfigBuilder.apply_setter] at h
      unfold RegridConfigBuilder.set_max_points at h
      split_ifs at h with h1 h2 <;> (injection h with h; subst h)
      · exact ⟨g1, g2, not_le.mp h1, not_le.mp h1, le_refl n, g6, g7, g8, g9⟩
      · exact ⟨g1, g2, not_le.mp h1, g4, not_lt.mp h2, g6, g7, g8, g9⟩
    | minPoints n =>
      simp only [RegridConfigBuilder.apply_setter] at h
      unfold RegridConfigBuilder.set_min_points at h
      split_ifs at h with h1 h2
      injection h with h
      subst h
      exact ⟨g1, g2, g3, not_le.mp h1, not_lt.mp h2, g6, g7, g8, g9⟩
    | adjustLon b =>
      simp only [RegridConfigBuilder.apply_setter] at h
      unfold RegridConfigBuilder.set_adjust_longitude at h
      injection h with h
      subst h
      exact ⟨g1, g2, g3, g4, g5, g6, g7, g8, g9⟩
    | precisionOf p =>
      simp only [RegridConfigBuilder.apply_setter] at h
      unfold RegridConfigBuilder.set_precision at h
      split_ifs at h with h1
      injection h with h
      subst h
      exact ⟨g1, g2, g3, g4, g5, not_lt.mp h1, g7, g8, g9⟩
    | verboseFlag b =>
      simp only [RegridConfigBuilder.apply_setter] at h
      unfold RegridConfigBuilder.set_verbose at h
      injection h with h
      subst h
      exact ⟨g1, g2, g3, g4, g5, g6, g7, g8, g9⟩
    | writeMappings b =>
      simp only [RegridConfigBuilder.apply_setter] at h
      unfold RegridConfigBuilder.set_write_mappings at h
      injection h with h
      subst h
      exact ⟨g1, g2, g3, g4, g5, g6, g7, g8, g9⟩
    | nnFile s =>
      simp only [RegridConfigBuilder.apply_setter] at h
      unfold RegridConfigBuilder.set_nn_mappings_file at h
      split_ifs at h with h1
      injection h with h
      subst h
      exact ⟨g1, g2, g3, g4, g5, g6, h1, g8, g9⟩
    | idwFile s =>
      simp only [RegridConfigBuilder.apply_setter] at h
      unfold RegridConfigBuilder.set_idw_mappings_file at h
      split_ifs at h with h1
      injection h with h
      subst h
      exact ⟨g1, g2, g3, g4, g5, g6, g7, h1, g9⟩
    | chunkSize n =>
      simp only [RegridConfigBuilder.apply_setter] at h
      unfold RegridConfigBuilder.set_chunk_size at h
      split_ifs at h with h1
      injection h with h
      subst h
      exact ⟨g1, g2, g3, g4, g5, g6, g7, g8, Nat.pos_of_ne_zero h1⟩
    | outputPath s =>
      simp only [RegridConfigBuilder.apply_setter] at h
      unfold RegridConfigBuilder.set_output_path at h
      injection h with h
      subst h
      exact ⟨g1, g2, g3, g4, g5, g6, g7, g8, g9⟩
  intro calls
  induction calls with
  | nil =>
    intro c c2 hg h
    unfold RegridConfigBuilder.apply_setters at h
    injection h with h
    subst h
    exact hg
  | cons call rest ih =>
    intro c c2 hg h
    unfold RegridConfigBuilder.apply_setters at h
    cases hstep : RegridConfigBuilder.apply_setter c call with
    | error e =>
      rw [hstep] at h
      exact absurd h (by simp)
    | ok cmid =>
      rw [hstep] at h
      exact ih (step hg hstep) h

/-- C7: each validating setter of `RegridConfigBuilder` rejects exactly the
out-of-range arguments the spec lists (negative radius, non-positive power,
non-positive max/min points, `min_points` above the current `max_points`,
zero chunk size, empty mapping filenames), and after any sequence of
successful setter calls `build()` returns a configuration satisfying all
the builder's range constraints — in particular never one violating them. -/
theorem builder_claim :
    (∀ (cfg : RegridConfig) (r : ℝ),
      (∃ e, RegridConfigBuilder.set_radius cfg r = .error e) ↔ r < 0) ∧
    (∀ (cfg : RegridConfig) (p : ℝ),
      (∃ e, RegridConfigBuilder.set_power cfg p = .error e) ↔ p ≤ 0) ∧
    (∀ (cfg : RegridConfig) (n : ℤ),
      (∃ e, RegridConfigBuilder.set_max_points cfg n = .error e) ↔ n ≤ 0) ∧
    (∀ (cfg : RegridConfig) (n : ℤ),
      (∃ e, RegridConfigBuilder.set_min_points cfg n = .error e) ↔
        n ≤ 0 ∨ cfg.max_points < n) ∧
    (∀ (cfg : RegridConfig) (n : ℕ),
      (∃ e, RegridConfigBuilder.set_chunk_size cfg n = .error e) ↔ n = 0) ∧
    (∀ (cfg : RegridConfig) (s : String),
      (∃ e, RegridConfigBuilder.set_nn_mappings_file cfg s = .error e) ↔ s = "") ∧
    (∀ (cfg : RegridConfig) (s : String),
      (∃ e, RegridConfigBuilder.set_idw_mappings_file cfg s = .error e) ↔ s = "") ∧
    (∀ (calls : List RegridConfigBuilder.SetterCall) (cfg : RegridConfig),
      RegridConfigBuilder.apply_setters default_config calls = .ok cfg →
      RegridConfigBuilder.GoodConfig (RegridConfigBuilder.build cfg)) := by
  refine ⟨?_, ?_, ?_, ?_, ?_, ?_, ?_, ?_⟩
  · intro cfg r
    unfold RegridConfigBuilder.set_radius
    split_ifs with h1
    · exact ⟨fun _ => h1, fun _ => ⟨_, rfl⟩⟩
    · exact ⟨fun ⟨e, he⟩ => absurd he (by simp), fun hc => absurd hc h1⟩
  · intro cfg p
    unfold RegridConfigBuilder.set_power
    split_ifs with h1
    · exact ⟨fun _ => h1, fun _ => ⟨_, rfl⟩⟩
    · exact ⟨fun ⟨e, he⟩ => absurd he (by simp), fun hc => absurd hc h1⟩
  · intro cfg n
    unfold RegridConfigBuilder.set_max_points
    split_ifs with h1
    · exact ⟨fun _ => h1, fun _ => ⟨_, rfl⟩⟩
    · exact ⟨fun ⟨e, he⟩ => absurd he (by simp), fun hc => absurd hc h1⟩
  · intro cfg n
    unfold RegridConfigBuilder.set_min_points
    split_ifs with h1 h2
    · exact ⟨fun _ => Or.inl h1, fun _ => ⟨_, rfl⟩⟩
    · exact ⟨fun _ => Or.inr h2, fun _ => ⟨_, rfl⟩⟩
    · refine ⟨fun ⟨e, he⟩ => absurd he (by simp), fun hc => ?_⟩
      rcases hc with hc | hc
      · exact absurd hc h1
      · exact absurd hc h2
  · intro cfg n
    unfold RegridConfigBuilder.set_chunk_size
    split_ifs with h1
    · exact ⟨fun _ => h1, fun _ => ⟨_, rfl⟩⟩
    · exact ⟨fun ⟨e, he⟩ => absurd he (by simp), fun hc => absurd hc h1⟩
  · intro cfg s
    unfold RegridConfigBuilder.set_nn_mappings_file
    split_ifs with h1
    · exact ⟨fun _ => h1, fun _ => ⟨_, rfl⟩⟩
    · exact ⟨fun ⟨e, he⟩ => absurd he (by simp), fun hc => absurd hc h1⟩
  · intro cfg s
    unfold RegridConfigBuilder.set_idw_mappings_file
    split_ifs with h1
    · exact ⟨fun _ => h1, fun _ => ⟨_, rfl⟩⟩
    · exact ⟨fun ⟨e, he⟩ => absurd he (by simp), fun hc => absurd hc h1⟩
  · intro calls cfg h
    exact apply_setters_good calls good_default h

/-- Witness for C7: the empty setter sequence yields the default
configuration, which satisfies every builder range constraint. -/
theorem builder_claim_witness :
    RegridConfigBuilder.GoodConfig (RegridConfigBuilder.build default_config) :=
  builder_claim.2.2.2.2.2.2.2 [] default_config rfl

/-- C10: `set_max_points` never fails on a positive argument — when the
pending `min_points` exceeds the new `max_points` it silently clamps it
down to the new `max_points` instead of raising — and every configuration
reachable from the defaults through successful setter calls satisfies
`min_points ≤ max_points` at `build()`. -/
theorem min_le_max_claim :
    (∀ (cfg : RegridConfig) (n : ℤ), 0 < n →
      ∃ cfg2, RegridConfigBuilder.set_max_points cfg n = .ok cfg2 ∧
        cfg2.max_points = n ∧ cfg2.min_points = min cfg.min_points n ∧
        cfg2.min_points ≤ cfg2.max_points) ∧
    (∀ (calls : List RegridConfigBuilder.SetterCall) (cfg : RegridConfig),
      RegridConfigBuilder.apply_setters default_config calls = .ok cfg →
      (RegridConfigBuilder.build cfg).min_points ≤
        (RegridConfigBuilder.build cfg).max_points) := by
  constructor
  · intro cfg n hn
    have key : RegridConfigBuilder.set_max_points cfg n =
        .ok { cfg with
              max_points := n
              min_points := if n < cfg.min_points then n else cfg.min_points } := by
      unfold RegridConfigBuilder.set_max_points
      rw [if_neg (not_le.mpr hn)]
    refine ⟨_, key, rfl, ?_, ?_⟩
    · show (if n < cfg.min_points then n else cfg.min_points) = min cfg.min_points n
      by_cases h2 : n < cfg.min_points
      · rw [if_pos h2, min_eq_right h2.le]
      · rw [if_neg h2, min_eq_left (not_lt.mp h2)]
    · show (if n < cfg.min_points then n else cfg.min_points) ≤ n
      by_cases h2 : n < cfg.min_points
      · rw [if_pos h2]
      · rw [if_neg h2]
        exact not_lt.mp h2
  · intro calls cfg h
    exact (apply_setters_good calls good_default h).2.2.2.2.1

/-- Witness for C10: `set_max_points 3` on the defaults (whose
`min_points` is 5) succeeds and clamps `min_points` down to 3; the empty
call sequence satisfies the invariant. -/
theorem min_le_max_claim_witness :
    (∃ cfg2, RegridConfigBuilder.set_max_points default_config 3 = .ok cfg2 ∧
      cfg2.max_points = 3 ∧ cfg2.min_points = min default_config.min_points 3 ∧
      cfg2.min_points ≤ cfg2.max_points) ∧
    (RegridConfigBuilder.build default_config).min_points ≤
      (RegridConfigBuilder.build default_config).max_points :=
  ⟨min_le_max_claim.1 default_config 3 (by norm_num),
   min_le_max_claim.2 [] default_config rfl⟩

/-! ### Characterisation of the exhaustive minimum-tracking scan -/

lemma nn_scan_eq_pure (cfg : RegridConfig) {t : SpatialData} (hvt : valid_point t) :
    ∀ (l : List SpatialData), (∀ s ∈ l, valid_point s) →
      ∀ best, SpatialIndex.nn_scan cfg t l best = .ok (scan_pure cfg t l best) := by
  intro l
  induction l with
  | nil =>
    intro _ best
    rfl
  | cons s rest ih =>
    intro hl best
    have hvs := hl s (by simp)
    have hd := @compute_distance_eq_ok _ _ _ _ cfg.distance_metric
      hvt.1 hvs.1 hvt.2 hvs.2
    have ihrest := ih (fun x hx => hl x (by simp [hx]))
    cases best with
    | none =>
      simp only [SpatialIndex.nn_scan, hd, scan_pure, scan_entry, dist_pt]
      exact ihrest _
    | some b =>
      simp only [SpatialIndex.nn_scan, hd, scan_pure, scan_entry, dist_pt]
      exact ihrest _

lemma scan_pure_first_min (cfg : RegridConfig) (t s0 : SpatialData)
    (rest : List SpatialData) :
    ∃ j sj, FirstSeenNearest cfg (s0 :: rest) t j sj ∧
      scan_pure cfg t (s0 :: rest) none = some (scan_entry cfg t sj) := by
  have char :
      ∀ (l : List SpatialData) (b : ℝ × ℝ × ℝ),
        (scan_pure cfg t l (some b) = some b ∧ ∀ s ∈ l, b.2.2 ≤ dist_pt cfg t s) ∨
        (∃ (j : ℕ) (sj : SpatialData), l[j]? = some sj ∧
          scan_pure cfg t l (some b) = some (scan_entry cfg t sj) ∧
          dist_pt cfg t sj < b.2.2 ∧
          (∀ s ∈ l, dist_pt cfg t sj ≤ dist_pt cfg t s) ∧
          (∀ k sk, k < j → l[k]? = some sk → dist_pt cfg t sj < dist_pt cfg t sk)) := by
    intro l
    induction l with
    | nil =>
      intro b
      exact Or.inl ⟨rfl, by simp⟩
    | cons s rest ih =>
      intro b
      by_cases hlt : dist_pt cfg t s < b.2.2
      · have hstep : scan_pure cfg t (s :: rest) (some b) =
            scan_pure cfg t rest (some (scan_entry cfg t s)) := by
          simp only [scan_pure, if_pos hlt]
        have hds : (scan_entry cfg t s).2.2 = dist_pt cfg t s := rfl
        rcases ih (scan_entry cfg t s) with ⟨hres, hmin⟩ | ⟨j, sj, hj, hres, hlt2, hmin, hstrict⟩
        · refine Or.inr ⟨0, s, by simp, ?_, hlt, ?_, ?_⟩
          · rw [hstep, hres]
          · intro x hx
            rcases List.mem_cons.mp hx with rfl | hx
            · exact le_refl _
            · exact hds ▸ hmin x hx
          · intro k sk hk
            omega
        · rw [hds] at hlt2
          refine Or.inr ⟨j + 1, sj, by simpa using hj, ?_, hlt2.trans hlt, ?_, ?_⟩
          · rw [hstep, hres]
          · intro x hx
            rcases List.mem_cons.mp hx with rfl | hx
            · exact hlt2.le
            · exact hmin x hx
          · intro k sk hk hsk
            match k with
            | 0 =>
              simp only [List.getElem?_cons_zero, Option.some.injEq] at hsk
              subst hsk
              exact hlt2
            | k2 + 1 =>
              simp only [List.getElem?_cons_succ] at hsk
              exact hstrict k2 sk (by omega) hsk
      · have hstep : scan_pure cfg t (s :: rest) (some b) =
            scan_pure cfg t rest (some b) := by
          simp only [scan_pure, if_neg hlt]
        have hsb : b.2.2 ≤ dist_pt cfg t s := not_lt.mp hlt
        rcases ih b with ⟨hres, hmin⟩ | ⟨j, sj, hj, hres, hlt2, hmin, hstrict⟩
        · refine Or.inl ⟨by rw [hstep, hres], ?_⟩
          intro x hx
          rcases List.mem_cons.mp hx with rfl | hx
          · exact hsb
          · exact hmin x hx
        · refine Or.inr ⟨j + 1, sj, by simpa using hj, by rw [hstep, hres], hlt2, ?_, ?_⟩
          · intro x hx
            rcases List.mem_cons.mp hx with rfl | hx
            · exact hlt2.le.trans hsb
            · exact hmin x hx
          · intro k sk hk hsk
            match k with
            | 0 =>
              simp only [List.getElem?_cons_zero, Option.some.injEq] at hsk
              subst hsk
              exact hlt2.trans_le hsb
            | k2 + 1 =>
              simp only [List.getElem?_cons_succ] at hsk
              exact hstrict k2 sk (by omega) hsk
  have hstep : scan_pure cfg t (s0 :: rest) none =
      scan_pure cfg t rest (some (scan_entry cfg t s0)) := by
    simp only [scan_pure]
  have hds : (scan_entry cfg t s0).2.2 = dist_pt cfg t s0 := rfl
  rcases char rest (scan_entry cfg t s0) with
    ⟨hres, hmin⟩ | ⟨j, sj, hj, hres, hlt2, hmin, hstrict⟩
  · refine ⟨0, s0, ⟨by simp, ?_, ?_⟩, by rw [hstep, hres]⟩
    · intro x hx
      rcases List.mem_cons.mp hx with rfl | hx
      · exact le_refl _
      · exact hds ▸ hmin x hx
    · intro k sk hk
      omega
  · rw [hds] at hlt2
    refine ⟨j + 1, sj, ⟨by simpa using hj, ?_, ?_⟩, by rw [hstep, hres]⟩
    · intro x hx
      rcases List.mem_cons.mp hx with rfl | hx
      · exact hlt2.le
      · exact hmin x hx
    · intro k sk hk hsk
      match k with
      | 0 =>
        simp only [List.getElem?_cons_zero, Option.some.injEq] at hsk
        subst hsk
        exact hlt2
      | k2 + 1 =>
        simp only [List.getElem?_cons_succ] at hsk
        exact hstrict k2 sk (by omega) hsk

lemma nn_loop_spec (cfg : RegridConfig) {sources : List SpatialData}
    {s0 : SpatialData} {srest : List SpatialData} (hs : sources = s0 :: srest)
    (hvs : ∀ s ∈ sources, valid_point s) :
    ∀ (ts : List SpatialData) (i0 : ℕ), (∀ x ∈ ts, valid_point x) →
      ∃ ms, SpatialIndex.nn_loop cfg sources i0 ts = .ok ms ∧
        ms.length = ts.length ∧
        ∀ k tk, ts[k]? = some tk →
          ∃ j sj, FirstSeenNearest cfg sources tk j sj ∧
            ms[k]? = some
              ({ target_lon := tk.gridPoint.longitude
                 target_lat := tk.gridPoint.latitude
                 source_lon := sj.gridPoint.longitude
                 source_lat := sj.gridPoint.latitude
                 distance_km := SpatialIndex.report_km cfg tk (dist_pt cfg tk sj)
                 target_index := i0 + k } : NNMapping) := by
  have tgt : ∀ {t : SpatialData}, valid_point t → ∀ i : ℕ,
      ∃ j sj, FirstSeenNearest cfg sources t j sj ∧
        SpatialIndex.nn_target cfg sources i t = .ok
          { target_lon := t.gridPoint.longitude
            target_lat := t.gridPoint.latitude
            source_lon := sj.gridPoint.longitude
            source_lat := sj.gridPoint.latitude
            distance_km := SpatialIndex.report_km cfg t (dist_pt cfg t sj)
            target_index := i } := by
    intro t hvt i
    subst hs
    obtain ⟨j, sj, hfirst, hpure⟩ := scan_pure_first_min cfg t s0 srest
    refine ⟨j, sj, hfirst, ?_⟩
    unfold SpatialIndex.nn_target
    rw [nn_scan_eq_pure cfg hvt _ hvs none, hpure]
    rfl
  intro ts
  induction ts with
  | nil =>
    intro i0 _
    exact ⟨[], rfl, rfl, by simp⟩
  | cons t trest ih =>
    intro i0 hvts
    obtain ⟨j, sj, hfirst, htgt⟩ :=
      tgt (hvts t (by simp)) i0
    obtain ⟨ms, hloop, hlen, hidx⟩ :=
      ih (i0 + 1) (fun x hx => hvts x (by simp [hx]))
    refine ⟨⟨t.gridPoint.longitude, t.gridPoint.latitude, sj.gridPoint.longitude,
      sj.gridPoint.latitude, SpatialIndex.report_km cfg t (dist_pt cfg t sj), i0⟩ :: ms,
      ?_, ?_, ?_⟩
    · show SpatialIndex.nn_loop cfg sources i0 (t :: trest) = _
      simp only [SpatialIndex.nn_loop, htgt, hloop]
    · simpa using hlen
    · intro k tk hk
      match k with
      | 0 =>
        simp only [List.getElem?_cons_zero, Option.some.injEq] at hk
        subst hk
        exact ⟨j, sj, hfirst, by simp⟩
      | k2 + 1 =>
        simp only [List.getElem?_cons_succ] at hk
        obtain ⟨j2, sj2, hfirst2, hms⟩ := hidx k2 tk hk
        refine ⟨j2, sj2, hfirst2, ?_⟩
        simpa [Nat.add_assoc, Nat.add_comm 1 k2] using hms

/-- C3: on a non-empty source set and any target list (with the data-model
coordinate invariants), `find_nearest_neighbors` returns exactly one mapping
per target — never suppressed by the radius — whose source is the first-seen
minimiser of the configured-metric distance over all sources, and whose
reported distance is the winning distance converted to km (identity for
`HAVERSINE`, `* 111.32 * cos(to_radians(target latitude))` for
`EUCLIDEAN`). -/
theorem nn_mappings_claim (cfg : RegridConfig) (sources targets : List SpatialData)
    (hs : sources ≠ []) (hvs : ∀ s ∈ sources, valid_point s)
    (hvt : ∀ x ∈ targets, valid_point x) :
    ∃ ms, SpatialIndex.find_nearest_neighbors cfg sources targets = .ok ms ∧
      NNResultSpec cfg sources targets ms := by
  match hmatch : sources with
  | [] => exact absurd rfl hs
  | s0 :: srest =>
    obtain ⟨ms, hloop, hlen, hidx⟩ := nn_loop_spec cfg rfl hvs targets 0 hvt
    refine ⟨ms, ?_, hlen, ?_⟩
    · unfold SpatialIndex.find_nearest_neighbors
      exact hloop
    · intro i t ht
      obtain ⟨j, sj, hfirst, hms⟩ := hidx i t ht
      exact ⟨j, sj, hfirst, by simpa using hms⟩

/-- Witness for C3: a single source at the origin and a single target at
(3, 0) under the Euclidean metric. -/
theorem nn_mappings_claim_witness :
    ∃ ms, SpatialIndex.find_nearest_neighbors cfg_a [pt_origin] [pt_east] = .ok ms ∧
      NNResultSpec cfg_a [pt_origin] [pt_east] ms :=
  nn_mappings_claim cfg_a [pt_origin] [pt_east] (by simp)
    (by
      intro s hsm
      rw [List.mem_singleton] at hsm
      subst hsm
      exact ⟨by norm_num [pt_origin], by norm_num [pt_origin]⟩)
    (by
      intro x hxm
      rw [List.mem_singleton] at hxm
      subst hxm
      exact ⟨by norm_num [pt_east], by norm_num [pt_east]⟩)

/-! ### The IDW candidate loop and per-target behaviour -/

lemma size_t_cast_eq {n : ℤ} (h0 : 0 ≤ n) (hB : n < 2 ^ 64) :
    size_t_cast n = n.toNat := by
  unfold size_t_cast
  rw [Int.emod_eq_of_lt h0 hB]

lemma idw_candidates_eq (cfg : RegridConfig) {t : SpatialData} (hvt : valid_point t)
    (hrad : 0 ≤ cfg.radius) :
    ∀ (l : List SpatialData), (∀ s ∈ l, valid_point s) →
      SpatialIndex.idw_candidates cfg t l =
        .ok ((l.filter (fun s => decide (admitted cfg t s))).map (scan_entry cfg t)) := by
  intro l
  induction l with
  | nil =>
    intro _
    rfl
  | cons s rest ih =>
    intro hl
    have hvs := hl s (by simp)
    have hd := @compute_distance_eq_ok _ _ _ _ cfg.distance_metric
      hvt.1 hvs.1 hvt.2 hvs.2
    have ihrest := ih (fun x hx => hl x (by simp [hx]))
    cases hmet : cfg.distance_metric with
    | EUCLIDEAN =>
      have hcond : (utils.dist_val t.gridPoint.longitude t.gridPoint.latitude
          s.gridPoint.longitude s.gridPoint.latitude DistanceMetric.EUCLIDEAN ≤
            utils.km_to_degrees_val cfg.radius t.gridPoint.latitude) ↔
          admitted cfg t s := by
        simp [admitted, dist_pt, idw_threshold, hmet]
      rw [hmet] at hd
      simp only [SpatialIndex.idw_candidates, hmet, hd,
        km_to_degrees_eq_ok hrad hvt.1, ihrest]
      by_cases hadm : admitted cfg t s
      · rw [if_pos (hcond.mpr hadm)]
        simp only [List.filter_cons, decide_eq_true_eq]
        rw [if_pos hadm]
        simp [scan_entry, dist_pt, hmet]
      · rw [if_neg (fun hc => hadm (hcond.mp hc))]
        simp only [List.filter_cons, decide_eq_true_eq]
        rw [if_neg hadm]
    | HAVERSINE =>
      have hcond : (utils.dist_val t.gridPoint.longitude t.gridPoint.latitude
          s.gridPoint.longitude s.gridPoint.latitude DistanceMetric.HAVERSINE ≤
            cfg.radius) ↔ admitted cfg t s := by
        simp [admitted, dist_pt, idw_threshold, hmet]
      rw [hmet] at hd
      simp only [SpatialIndex.idw_candidates, hmet, hd, ihrest]
      by_cases hadm : admitted cfg t s
      · rw [if_pos (hcond.mpr hadm)]
        simp only [List.filter_cons, decide_eq_true_eq]
        rw [if_pos hadm]
        simp [scan_entry, dist_pt, hmet]
      · rw [if_neg (fun hc => hadm (hcond.mp hc))]
        simp only [List.filter_cons, decide_eq_true_eq]
        rw [if_neg hadm]

lemma idw_emit_ok {t : SpatialData} {i : ℕ} {nbrs : List (ℝ × ℝ × ℝ)} {fb : Bool}
    (h : nbrs ≠ []) :
    SpatialIndex.idw_emit t i nbrs fb =
      .ok ⟨t.gridPoint.longitude, t.gridPoint.latitude, nbrs, i, fb⟩ := by
  cases nbrs with
  | nil => exact absurd rfl h
  | cons nb nbs => rfl

theorem idw_fallback_claim (cfg : RegridConfig) (sources targets : List SpatialData)
    (hs : sources ≠ []) (hvs : ∀ s ∈ sources, valid_point s)
    (hvt : ∀ x ∈ targets, valid_point x) (hrad : 0 ≤ cfg.radius)
    (hmin1 : 1 ≤ cfg.min_points) (hminB : cfg.min_points < 2 ^ 64)
    (hmax1 : 1 ≤ cfg.max_points) (hmaxB : cfg.max_points < 2 ^ 64) :
    ∃ ms, SpatialIndex.find_idw_neighbors cfg sources targets = .ok ms ∧
      IDWFallbackSpec cfg sources targets ms := by
  match hmatch : sources with
  | [] => exact absurd rfl hs
  | s0 :: srest =>
    have stnil : ∀ {t : SpatialData} {cands : List (ℝ × ℝ × ℝ)},
        cands ≠ [] → 1 ≤ size_t_cast cfg.max_points →
        SpatialIndex.idw_sort_truncate cfg t cands ≠ [] := by
      intro t cands hC hmax
      have hlen : (cands.mergeSort (fun a b => decide (a.2.2 ≤ b.2.2))).length = cands.length :=
        List.length_mergeSort cands
      have hpos : 0 < cands.length := List.length_pos.mpr hC
      apply List.ne_nil_of_length_pos
      unfold SpatialIndex.idw_sort_truncate
      split_ifs with h1 <;>
        (simp only [List.length_map]
         rw [apply_ite List.length]
         split_ifs with h2 <;>
           simp only [List.length_take, List.length_mergeSort] <;>
           omega)
    have tgt : ∀ {t : SpatialData}, valid_point t → ∀ i : ℕ,
        ∃ m : IDWMapping, SpatialIndex.idw_target cfg (s0 :: srest) i t = .ok m ∧
          m.target_index = i ∧ m.target_lon = t.gridPoint.longitude ∧
          m.target_lat = t.gridPoint.latitude ∧
          (m.is_fallback = true ↔
            (count_admitted cfg (s0 :: srest) t : ℤ) < cfg.min_points) ∧
          (m.is_fallback = true →
            ∃ j sj, FirstSeenNearest cfg (s0 :: srest) t j sj ∧
              m.neighbors = [(sj.gridPoint.longitude, sj.gridPoint.latitude,
                SpatialIndex.report_km cfg t (dist_pt cfg t sj))]) := by
      intro t hvt i
      have hcands := idw_candidates_eq cfg hvt hrad (s0 :: srest) hvs
      have hcastmin : size_t_cast cfg.min_points = cfg.min_points.toNat :=
        size_t_cast_eq (by linarith) hminB
      have hcastmax : size_t_cast cfg.max_points = cfg.max_points.toNat :=
        size_t_cast_eq (by linarith) hmaxB
      have htn : (cfg.min_points.toNat : ℤ) = cfg.min_points :=
        Int.toNat_of_nonneg (by linarith)
      set C := (((s0 :: srest).filter (fun s => decide (admitted cfg t s))).map
        (scan_entry cfg t)) with hCdef
      have hcount : C.length = count_admitted cfg (s0 :: srest) t := by
        simp [hCdef, count_admitted]
      have hiff : (C.length < size_t_cast cfg.min_points) ↔
          ((count_admitted cfg (s0 :: srest) t : ℤ) < cfg.min_points) := by
        rw [← hcount, hcastmin]
        omega
      unfold SpatialIndex.idw_target
      simp only [hcands]
      by_cases hfb : C.length < size_t_cast cfg.min_points
      · rw [if_pos hfb]
        obtain ⟨j, sj, hfirst, hpure⟩ := scan_pure_first_min cfg t s0 srest
        rw [nn_scan_eq_pure cfg hvt _ hvs none, hpure]
        refine ⟨⟨t.gridPoint.longitude, t.gridPoint.latitude,
          [(sj.gridPoint.longitude, sj.gridPoint.latitude,
            SpatialIndex.report_km cfg t (dist_pt cfg t sj))], i, true⟩, ?_, rfl, rfl, rfl,
          ?_, ?_⟩
        · rfl
        · simpa using hiff.mp hfb
        · exact fun _ => ⟨j, sj, hfirst, rfl⟩
      · rw [if_neg hfb]
        have hCne : C ≠ [] := by
          apply List.ne_nil_of_length_pos
          have : 1 ≤ size_t_cast cfg.min_points := by omega
          omega
        have hne := @stnil t C hCne (by omega)
        rw [idw_emit_ok hne]
        refine ⟨⟨t.gridPoint.longitude, t.gridPoint.latitude,
          SpatialIndex.idw_sort_truncate cfg t C, i, false⟩, rfl, rfl, rfl, rfl, ?_, ?_⟩
        · constructor
          · intro hx
            exact absurd hx (by simp)
          · intro hc
            exact absurd (hiff.mpr hc) hfb
        · intro hx
          exact absurd hx (by simp)
    have loop : ∀ (ts : List SpatialData) (i0 : ℕ), (∀ x ∈ ts, valid_point x) →
        ∃ ms, SpatialIndex.idw_loop cfg (s0 :: srest) i0 ts = .ok ms ∧
          ms.length = ts.length ∧
          ∀ k tk, ts[k]? = some tk →
            ∃ m : IDWMapping, ms[k]? = some m ∧ m.target_index = i0 + k ∧
              m.target_lon = tk.gridPoint.longitude ∧
              m.target_lat = tk.gridPoint.latitude ∧
              (m.is_fallback = true ↔
                (count_admitted cfg (s0 :: srest) tk : ℤ) < cfg.min_points) ∧
              (m.is_fallback = true →
                ∃ j sj, FirstSeenNearest cfg (s0 :: srest) tk j sj ∧
                  m.neighbors = [(sj.gridPoint.longitude, sj.gridPoint.latitude,
                    SpatialIndex.report_km cfg tk (dist_pt cfg tk sj))]) := by
      intro ts
      induction ts with
      | nil =>
        intro i0 _
        exact ⟨[], rfl, rfl, by simp⟩
      | cons t trest ih =>
        intro i0 hvts
        obtain ⟨m, htgt, hmi, hmlon, hmlat, hmiff, hmfb⟩ :=
          tgt (hvts t (by simp)) i0
        obtain ⟨ms, hloop, hlen, hidx⟩ :=
          ih (i0 + 1) (fun x hx => hvts x (by simp [hx]))
        refine ⟨m :: ms, ?_, by simpa using hlen, ?_⟩
        · show SpatialIndex.idw_loop cfg (s0 :: srest) i0 (t :: trest) = _
          simp only [SpatialIndex.idw_loop, htgt, hloop]
        · intro k tk hk
          match k with
          | 0 =>
            simp only [List.getElem?_cons_zero, Option.some.injEq] at hk
            subst hk
            exact ⟨m, by simp, by simpa using hmi, hmlon, hmlat, hmiff, hmfb⟩
          | k2 + 1 =>
            simp only [List.getElem?_cons_succ] at hk
            obtain ⟨m2, hm2, hmi2, h3, h4, h5, h6⟩ := hidx k2 tk hk
            exact ⟨m2, by simpa using hm2, by rw [hmi2]; omega, h3, h4, h5, h6⟩
    obtain ⟨ms, hloop, hlen, hidx⟩ :=
      loop targets 0 hvt
    refine ⟨ms, ?_, hlen, ?_⟩
    · unfold SpatialIndex.find_idw_neighbors
      exact hloop
    · intro i t ht
      obtain ⟨m, hm, h2, h3, h4, h5, h6⟩ := hidx i t ht
      exact ⟨m, hm, by simpa using h2, h3, h4, h5, h6⟩

/-- Witness for C2: a single source at the origin, a single target at
(3, 0), Euclidean metric, radius 100 km (the target is outside it, so the
fallback fires for this target). -/
theorem idw_fallback_claim_witness :
    ∃ ms, SpatialIndex.find_idw_neighbors cfg_a [pt_origin] [pt_east] = .ok ms ∧
      IDWFallbackSpec cfg_a [pt_origin] [pt_east] ms :=
  idw_fallback_claim cfg_a [pt_origin] [pt_east] (by simp)
    (by
      intro s hsm
      rw [List.mem_singleton] at hsm
      subst hsm
      exact ⟨by norm_num [pt_origin], by norm_num [pt_origin]⟩)
    (by
      intro x hxm
      rw [List.mem_singleton] at hxm
      subst hxm
      exact ⟨by norm_num [pt_east], by norm_num [pt_east]⟩)
    (by norm_num [cfg_a, default_config]) (by norm_num [cfg_a, default_config])
    (by norm_num [cfg_a, default_config]) (by norm_num [cfg_a, default_config])
    (by norm_num [cfg_a, default_config])

/-! ### The non-fallback IDW mapping invariant (claim C1) -/


/-- C1: every non-fallback mapping produced by `find_idw_neighbors` (on a
non-empty source set, any target list, and a `max_points` in `int` range)
has between 1 and `max_points` neighbors, sorted by ascending distance, and
every reported distance is `≥ 0` and `≤ radius` in km — the stored
metric-native distance for `HAVERSINE`, and the raw-degree distance
multiplied by `111.32 * cos(to_radians(target latitude))` for
`EUCLIDEAN`. -/
theorem idw_nonfallback_claim (cfg : RegridConfig)
    (sources targets : List SpatialData) (mappings : List IDWMapping)
    (m : IDWMapping)
    (hok : SpatialIndex.find_idw_neighbors cfg sources targets = .ok mappings)
    (hm : m ∈ mappings) (hfb : m.is_fallback = false)
    (hmax0 : 0 ≤ cfg.max_points) (hmaxB : cfg.max_points < 2 ^ 64) :
    IDWNonFallbackInvariant cfg m := by
  have idw_loop_mem : ∀ (cfg : RegridConfig) (sources : List SpatialData)
      (ts : List SpatialData) (i0 : ℕ) (ms : List IDWMapping),
      SpatialIndex.idw_loop cfg sources i0 ts = .ok ms →
      ∀ m ∈ ms, ∃ i t, SpatialIndex.idw_target cfg sources i t = .ok m := by
    intro cfg sources ts
    induction ts with
    | nil =>
      intro i0 ms h m hm
      simp only [SpatialIndex.idw_loop, Except.ok.injEq] at h
      subst h
      simp at hm
    | cons t trest ih =>
      intro i0 ms h m hm
      simp only [SpatialIndex.idw_loop] at h
      cases htgt : SpatialIndex.idw_target cfg sources i0 t with
      | error e =>
        rw [htgt] at h
        exact absurd h (by simp)
      | ok m0 =>
        rw [htgt] at h
        cases hrec : SpatialIndex.idw_loop cfg sources (i0 + 1) trest with
        | error e =>
          rw [hrec] at h
          exact absurd h (by simp)
        | ok ms2 =>
          rw [hrec] at h
          simp only [Except.ok.injEq] at h
          subst h
          rcases List.mem_cons.mp hm with rfl | hm2
          · exact ⟨i0, t, htgt⟩
          · exact ih (i0 + 1) ms2 hrec m hm2
  have idw_emit_ok_inv : ∀ {t : SpatialData} {i : ℕ} {nbrs : List (ℝ × ℝ × ℝ)}
      {fb : Bool} {m : IDWMapping},
      SpatialIndex.idw_emit t i nbrs fb = .ok m →
      m = ⟨t.gridPoint.longitude, t.gridPoint.latitude, nbrs, i, fb⟩ ∧
        nbrs ≠ [] := by
    intro t i nbrs fb m h
    cases nbrs with
    | nil => exact absurd h (by simp [SpatialIndex.idw_emit])
    | cons nb nbs =>
      simp only [SpatialIndex.idw_emit, Except.ok.injEq] at h
      exact ⟨h.symm, by simp⟩
  have idw_target_nf_inv : ∀ {cfg : RegridConfig} {sources : List SpatialData}
      {i : ℕ} {t : SpatialData} {m : IDWMapping},
      SpatialIndex.idw_target cfg sources i t = .ok m →
      m.is_fallback = false →
      ∃ cands, SpatialIndex.idw_candidates cfg t sources = .ok cands ∧
        size_t_cast cfg.min_points ≤ cands.length ∧
        m.neighbors = SpatialIndex.idw_sort_truncate cfg t cands ∧
        m.neighbors ≠ [] := by
    intro cfg sources i t m h hfb
    unfold SpatialIndex.idw_target at h
    cases hc : SpatialIndex.idw_candidates cfg t sources with
    | error e =>
      rw [hc] at h
      exact absurd h (by simp)
    | ok cands =>
      rw [hc] at h
      simp only at h
      split_ifs at h with hlt
      · cases hscan : SpatialIndex.nn_scan cfg t sources none with
        | error e =>
          rw [hscan] at h
          exact absurd h (by simp)
        | ok best =>
          rw [hscan] at h
          simp only at h
          obtain ⟨hm, _⟩ := idw_emit_ok_inv h
          rw [hm] at hfb
          exact absurd hfb (by simp)
      · obtain ⟨hm, hne⟩ := idw_emit_ok_inv h
        subst hm
        exact ⟨cands, rfl, not_lt.mp hlt, rfl, by simpa using hne⟩
  have idw_candidates_facts : ∀ (cfg : RegridConfig) (t : SpatialData)
      (l : List SpatialData) (cands : List (ℝ × ℝ × ℝ)),
      SpatialIndex.idw_candidates cfg t l = .ok cands →
      ∀ c ∈ cands, 0 ≤ c.2.2 ∧
        ((cfg.distance_metric = .HAVERSINE ∧ c.2.2 ≤ cfg.radius) ∨
         (cfg.distance_metric = .EUCLIDEAN ∧ |t.gridPoint.latitude| ≤ 90 ∧
           0 ≤ cfg.radius ∧
           c.2.2 ≤ utils.km_to_degrees_val cfg.radius t.gridPoint.latitude)) := by
    intro cfg t l
    induction l with
    | nil =>
      intro cands h c hc
      simp only [SpatialIndex.idw_candidates, Except.ok.injEq] at h
      subst h
      simp at hc
    | cons s rest ih =>
      intro cands h c hc
      simp only [SpatialIndex.idw_candidates] at h
      cases hd : utils.compute_distance t.gridPoint.longitude t.gridPoint.latitude
          s.gridPoint.longitude s.gridPoint.latitude cfg.distance_metric with
      | error e =>
        rw [hd] at h
        exact absurd h (by simp)
      | ok d =>
        rw [hd] at h
        simp only at h
        have hdnn : 0 ≤ d := by
          rw [(compute_distance_ok_inv hd).2.2.2.2]
          exact dist_val_nonneg _ _ _ _ _
        cases hmet : cfg.distance_metric with
        | EUCLIDEAN =>
          rw [hmet] at h ih
          cases hkd : utils.km_to_degrees cfg.radius t.gridPoint.latitude with
          | error e =>
            rw [hkd] at h
            exact absurd h (by simp)
          | ok rdeg =>
            rw [hkd] at h
            simp only at h
            obtain ⟨hr0, hlat90, hrv⟩ := km_to_degrees_ok_inv hkd
            cases hrec : SpatialIndex.idw_candidates cfg t rest with
            | error e =>
              rw [hrec] at h
              exact absurd h (by simp)
            | ok tail =>
              rw [hrec] at h
              simp only [Except.ok.injEq] at h
              subst h
              by_cases hle : d ≤ rdeg
              · rw [if_pos hle] at hc
                rcases List.mem_cons.mp hc with rfl | hc2
                · exact ⟨hdnn, Or.inr ⟨rfl, hlat90, hr0, by rw [← hrv]; exact hle⟩⟩
                · exact ih tail hrec c hc2
              · rw [if_neg hle] at hc
                exact ih tail hrec c hc
        | HAVERSINE =>
          rw [hmet] at h ih
          cases hrec : SpatialIndex.idw_candidates cfg t rest with
          | error e =>
            rw [hrec] at h
            exact absurd h (by simp)
          | ok tail =>
            rw [hrec] at h
            simp only [Except.ok.injEq] at h
            subst h
            by_cases hle : d ≤ cfg.radius
            · rw [if_pos hle] at hc
              rcases List.mem_cons.mp hc with rfl | hc2
              · exact ⟨hdnn, Or.inl ⟨rfl, hle⟩⟩
              · exact ih tail hrec c hc2
            · rw [if_neg hle] at hc
              exact ih tail hrec c hc
  have idw_sort_truncate_length : ∀ (cfg : RegridConfig) (t : SpatialData)
      (cands : List (ℝ × ℝ × ℝ)),
      (SpatialIndex.idw_sort_truncate cfg t cands).length ≤
        size_t_cast cfg.max_points := by
    intro cfg t cands
    unfold SpatialIndex.idw_sort_truncate
    split_ifs with h1 <;>
      (simp only [List.length_map]
       rw [apply_ite List.length]
       split_ifs with h2 <;>
         simp only [List.length_take, List.length_mergeSort] at h2 ⊢ <;>
         omega)
  have idw_sort_truncate_sorted : ∀ (cfg : RegridConfig) (t : SpatialData)
      (cands : List (ℝ × ℝ × ℝ)),
      (cfg.distance_metric = .EUCLIDEAN →
        0 ≤ Real.cos (utils.to_radians t.gridPoint.latitude)) →
      List.Sorted (· ≤ ·)
        ((SpatialIndex.idw_sort_truncate cfg t cands).map (fun nb => nb.2.2)) := by
    intro cfg t cands hcos
    have hsorted : (cands.mergeSort (fun a b => decide (a.2.2 ≤ b.2.2))).Pairwise
        (fun a b : ℝ × ℝ × ℝ => a.2.2 ≤ b.2.2) := by
      have := @List.sorted_mergeSort _
        (fun a b : ℝ × ℝ × ℝ => decide (a.2.2 ≤ b.2.2))
        (fun a b c hab hbc => by
          simp only [decide_eq_true_eq] at hab hbc ⊢
          exact le_trans hab hbc)
        (fun a b => by
          simp only [Bool.or_eq_true, decide_eq_true_eq]
          exact le_total _ _)
        cands
      exact this.imp (fun h => of_decide_eq_true h)
    have htrunc : (if size_t_cast cfg.max_points <
        (cands.mergeSort (fun a b => decide (a.2.2 ≤ b.2.2))).length then
        (cands.mergeSort (fun a b => decide (a.2.2 ≤ b.2.2))).take
          (size_t_cast cfg.max_points)
      else cands.mergeSort (fun a b => decide (a.2.2 ≤ b.2.2))).Pairwise
        (fun a b : ℝ × ℝ × ℝ => a.2.2 ≤ b.2.2) := by
      split_ifs with h2
      · exact hsorted.sublist (List.take_sublist _ _)
      · exact hsorted
    unfold SpatialIndex.idw_sort_truncate
    unfold List.Sorted
    split_ifs with h1
    · rw [List.map_map, List.pairwise_map]
      refine htrunc.imp ?_
      intro a b hab
      show a.2.2 * 111.32 * Real.cos (utils.to_radians t.gridPoint.latitude) ≤
        b.2.2 * 111.32 * Real.cos (utils.to_radians t.gridPoint.latitude)
      have hc := hcos h1
      apply mul_le_mul_of_nonneg_right _ hc
      apply mul_le_mul_of_nonneg_right hab (by norm_num)
    · rw [List.pairwise_map]
      exact htrunc
  have idw_sort_truncate_mem : ∀ {cfg : RegridConfig} {t : SpatialData}
      {cands : List (ℝ × ℝ × ℝ)} {nb : ℝ × ℝ × ℝ},
      nb ∈ SpatialIndex.idw_sort_truncate cfg t cands →
      (cfg.distance_metric = .EUCLIDEAN ∧ ∃ c ∈ cands,
        nb = (c.1, c.2.1, c.2.2 * 111.32 *
          Real.cos (utils.to_radians t.gridPoint.latitude))) ∨
      (cfg.distance_metric ≠ .EUCLIDEAN ∧ nb ∈ cands) := by
    intro cfg t cands nb h
    have hmemtr : ∀ x : ℝ × ℝ × ℝ, x ∈ (if size_t_cast cfg.max_points <
        (cands.mergeSort (fun a b => decide (a.2.2 ≤ b.2.2))).length then
        (cands.mergeSort (fun a b => decide (a.2.2 ≤ b.2.2))).take
          (size_t_cast cfg.max_points)
      else cands.mergeSort (fun a b => decide (a.2.2 ≤ b.2.2))) → x ∈ cands := by
      intro x hx
      split_ifs at hx with h2
      · exact List.mem_mergeSort.mp ((List.take_sublist _ _).mem hx)
      · exact List.mem_mergeSort.mp hx
    unfold SpatialIndex.idw_sort_truncate at h
    split_ifs at h with h1
    · rw [List.mem_map] at h
      obtain ⟨c, hc, hcnb⟩ := h
      exact Or.inl ⟨h1, c, hmemtr c hc, hcnb.symm⟩
    · exact Or.inr ⟨h1, hmemtr nb h⟩
  have hloopmem : ∃ i t, SpatialIndex.idw_target cfg sources i t = .ok m := by
    cases sources with
    | nil => exact absurd hok (by simp [SpatialIndex.find_idw_neighbors])
    | cons s0 srest =>
      unfold SpatialIndex.find_idw_neighbors at hok
      exact idw_loop_mem cfg (s0 :: srest) targets 0 mappings hok m hm
  obtain ⟨i, t, htgt⟩ := hloopmem
  obtain ⟨cands, hc, hge, hnb, hne⟩ := idw_target_nf_inv htgt hfb
  have hfacts := idw_candidates_facts cfg t sources cands hc
  have hcastmax : size_t_cast cfg.max_points = cfg.max_points.toNat :=
    size_t_cast_eq hmax0 hmaxB
  have hcandne : cands ≠ [] := by
    intro hnil
    apply hne
    rw [hnb, hnil]
    unfold SpatialIndex.idw_sort_truncate
    split_ifs <;> simp
  have hcos : cfg.distance_metric = .EUCLIDEAN →
      0 ≤ Real.cos (utils.to_radians t.gridPoint.latitude) := by
    intro hmet
    obtain ⟨c0, hc0⟩ := List.exists_mem_of_ne_nil cands hcandne
    rcases (hfacts c0 hc0).2 with ⟨hH, _⟩ | ⟨_, hlat90, _, _⟩
    · rw [hmet] at hH
      exact absurd hH (by simp)
    · exact cos_to_radians_nonneg hlat90
  refine ⟨?_, ?_, ?_, ?_⟩
  · have := List.length_pos.mpr hne
    omega
  · rw [hnb]
    have h1 : (SpatialIndex.idw_sort_truncate cfg t cands).length ≤
        cfg.max_points.toNat := hcastmax ▸ idw_sort_truncate_length cfg t cands
    omega
  · rw [hnb]
    exact idw_sort_truncate_sorted cfg t cands hcos
  · intro nb hnbm
    rw [hnb] at hnbm
    rcases idw_sort_truncate_mem hnbm with ⟨hmet, c, hcmem, hcnb⟩ | ⟨hmet, hcmem⟩
    · obtain ⟨hnn, hbound⟩ := hfacts c hcmem
      rcases hbound with ⟨hH, _⟩ | ⟨_, hlat90, hr0, hle⟩
      · rw [hmet] at hH
        exact absurd hH (by simp)
      · subst hcnb
        constructor
        · show 0 ≤ c.2.2 * 111.32 * Real.cos (utils.to_radians t.gridPoint.latitude)
          have := cos_to_radians_nonneg hlat90
          positivity
        · exact euclid_conv_within_radius hnn hlat90 hr0 hle
    · obtain ⟨hnn, hbound⟩ := hfacts nb hcmem
      rcases hbound with ⟨_, hle⟩ | ⟨hE, _⟩
      · exact ⟨hnn, hle⟩
      · exact absurd hE hmet

/-! ### Shared size_t evaluations -/

lemma size_t_cast_one : size_t_cast 1 = 1 :=
  size_t_cast_eq (by norm_num) (by norm_num)

/-- Witness for C1: the non-fallback mapping produced for a target
coincident with the single source satisfies the invariant. -/
theorem idw_nonfallback_claim_witness :
    IDWNonFallbackInvariant cfg_a ⟨0, 0, [(0, 0, 0)], 0, false⟩ := by
  have euclid_00 : utils.compute_distance 0 0 0 0 .EUCLIDEAN = .ok 0 := by
    rw [compute_distance_eq_ok (by norm_num) (by norm_num) (by norm_num) (by norm_num)]
    simp only [Except.ok.injEq, utils.dist_val, utils.euclidean_deg]
    norm_num
  have km2deg_100_0 : utils.km_to_degrees 100 0 = .ok (100 / 111.32) := by
    rw [km_to_degrees_eq_ok (by norm_num) (by norm_num)]
    simp only [Except.ok.injEq, utils.km_to_degrees_val, utils.cos_floor,
      cos_to_radians_zero]
    rw [if_neg (by norm_num)]
    norm_num
  have size_t_cast_five : size_t_cast 5 = 5 :=
    size_t_cast_eq (by norm_num) (by norm_num)
  have idw_candidates_eval_a :
      SpatialIndex.idw_candidates cfg_a pt_origin [pt_origin] = .ok [(0, 0, 0)] := by
    simp only [SpatialIndex.idw_candidates,
      show cfg_a.distance_metric = DistanceMetric.EUCLIDEAN from rfl,
      show pt_origin.gridPoint.longitude = (0 : ℝ) from rfl,
      show pt_origin.gridPoint.latitude = (0 : ℝ) from rfl,
      show cfg_a.radius = (100 : ℝ) from rfl, euclid_00, km2deg_100_0]
    rw [if_pos (by norm_num)]
  have idw_sort_truncate_eval_a :
      SpatialIndex.idw_sort_truncate cfg_a pt_origin [(0, 0, 0)] = [(0, 0, 0)] := by
    simp only [SpatialIndex.idw_sort_truncate, List.mergeSort_singleton,
      show cfg_a.max_points = (5 : ℤ) from rfl, size_t_cast_five,
      show cfg_a.distance_metric = DistanceMetric.EUCLIDEAN from rfl,
      show pt_origin.gridPoint.latitude = (0 : ℝ) from rfl, cos_to_radians_zero,
      List.length_cons, List.length_nil]
    norm_num
  have idw_target_eval_a :
      SpatialIndex.idw_target cfg_a [pt_origin] 0 pt_origin =
        .ok ⟨0, 0, [(0, 0, 0)], 0, false⟩ := by
    simp only [SpatialIndex.idw_target, idw_candidates_eval_a,
      show size_t_cast cfg_a.min_points = 1 from size_t_cast_one]
    rw [if_neg (by norm_num)]
    rw [idw_sort_truncate_eval_a]
    rw [idw_emit_ok (by simp)]
    rfl
  have find_idw_eval_a :
      SpatialIndex.find_idw_neighbors cfg_a [pt_origin] [pt_origin] =
        .ok [⟨0, 0, [(0, 0, 0)], 0, false⟩] := by
    unfold SpatialIndex.find_idw_neighbors
    simp only [SpatialIndex.idw_loop, idw_target_eval_a]
  exact idw_nonfallback_claim cfg_a [pt_origin] [pt_origin]
    [⟨0, 0, [(0, 0, 0)], 0, false⟩] ⟨0, 0, [(0, 0, 0)], 0, false⟩
    find_idw_eval_a (by simp) rfl
    (by norm_num [cfg_a, default_config]) (by norm_num [cfg_a, default_config])

/-! ### The IDW interpolation loop (claims C4 and C5) -/


/-- C4: when the IDW interpolation loop processes a non-fallback mapping
(with a valid target index, over a source set of uniform values length
`L`), the neighbors whose source record resolves (first-seen match on both
coordinates within `1e-6` and equal `time_step`) contribute weights
`1/dist^power` (or the `1e6` cap at `dist ≤ 1e-6`), unresolved neighbors
are skipped; if no neighbor resolved the target is omitted from the output,
and otherwise the emitted record's value vector has length `L` with
component `j` equal to `(Σ w_i·v_i[j]) / (Σ w_i)` over the resolved
neighbors. -/
theorem idw_weighting_claim (cfg : RegridConfig) (sources targets : List SpatialData)
    (m : IDWMapping) (ms : List IDWMapping) (L : ℕ) {t : SpatialData}
    (huni : ∀ s ∈ sources, s.values.length = L)
    (hfb : m.is_fallback = false) (hidx : m.target_index < targets.length)
    (ht : targets[m.target_index]? = some t) :
    (resolved_neighbors cfg sources t m.neighbors = [] →
      Interpolator.interpolate_idw_loop cfg sources targets (m :: ms) =
        Interpolator.interpolate_idw_loop cfg sources targets ms) ∧
    (resolved_neighbors cfg sources t m.neighbors ≠ [] →
      ∃ vals : List ℝ, vals.length = L ∧
        (∀ j, j < L → vals.getD j 0 =
          ((resolved_neighbors cfg sources t m.neighbors).map
             (fun p => p.1 * p.2.values.getD j 0)).sum /
           ((resolved_neighbors cfg sources t m.neighbors).map Prod.fst).sum) ∧
        Interpolator.interpolate_idw_loop cfg sources targets (m :: ms) =
          Except.map (fun res => { t with values := vals } :: res)
            (Interpolator.interpolate_idw_loop cfg sources targets ms)) := by
  have find_source_record_mem : ∀ {sources : List SpatialData} {time : ℤ}
      {slon slat : ℝ} {src : SpatialData},
      Interpolator.find_source_record sources time slon slat = some src →
      src ∈ sources := by
    intro sources time slon slat src h
    induction sources with
    | nil => exact absurd h (by simp [Interpolator.find_source_record])
    | cons s rest ih =>
      unfold Interpolator.find_source_record at h
      split_ifs at h with h1
      · simp only [Option.some.injEq] at h
        subst h
        simp
      · exact List.mem_cons_of_mem _ (ih h)
  have resolved_neighbors_cons : ∀ (cfg : RegridConfig)
      (sources : List SpatialData) (t : SpatialData) (slon slat d : ℝ)
      (rest : List (ℝ × ℝ × ℝ)),
      resolved_neighbors cfg sources t ((slon, slat, d) :: rest) =
        (match Interpolator.find_source_record sources t.time_step slon slat with
         | none => resolved_neighbors cfg sources t rest
         | some src =>
           (Interpolator.idw_weight cfg d, src) ::
             resolved_neighbors cfg sources t rest) := by
    intro cfg sources t slon slat d rest
    simp only [resolved_neighbors, List.filterMap_cons]
    cases Interpolator.find_source_record sources t.time_step slon slat <;> rfl
  have resolved_neighbors_snd_mem : ∀ {cfg : RegridConfig}
      {sources : List SpatialData} {t : SpatialData} {nbrs : List (ℝ × ℝ × ℝ)}
      {p : ℝ × SpatialData},
      p ∈ resolved_neighbors cfg sources t nbrs → p.2 ∈ sources := by
    intro cfg sources t nbrs p hp
    unfold resolved_neighbors at hp
    obtain ⟨nb, _, hf⟩ := List.mem_filterMap.mp hp
    obtain ⟨src, hsrc, hps⟩ := Option.map_eq_some'.mp hf
    have := find_source_record_mem hsrc
    rw [← hps]
    exact this
  have idw_collect_eq : ∀ (cfg : RegridConfig) (sources : List SpatialData)
      (t : SpatialData) (nbrs : List (ℝ × ℝ × ℝ)),
      Interpolator.idw_collect cfg sources t nbrs =
        ((resolved_neighbors cfg sources t nbrs).map Prod.fst,
         (resolved_neighbors cfg sources t nbrs).map Prod.snd) := by
    intro cfg sources t
    intro nbrs
    induction nbrs with
    | nil => rfl
    | cons nb rest ih =>
      obtain ⟨slon, slat, d⟩ := nb
      rw [resolved_neighbors_cons]
      cases hfs : Interpolator.find_source_record sources t.time_step slon slat with
      | none =>
        simp only [Interpolator.idw_collect, hfs]
        exact ih
      | some src =>
        simp only [Interpolator.idw_collect, hfs, ih, List.map_cons]
  have zip_map_fst_snd : ∀ {α β : Type} (R : List (α × β)),
      (R.map Prod.fst).zip (R.map Prod.snd) = R := by
    intro α β R
    induction R with
    | nil => rfl
    | cons p rest ih => simp [ih]
  have zipWith_add_getD : ∀ (w : ℝ) (a b : List ℝ), a.length = b.length →
      ∀ j : ℕ,
      (List.zipWith (fun x v => x + w * v) a b).getD j 0 =
        a.getD j 0 + w * b.getD j 0 := by
    intro w
    intro a
    induction a with
    | nil =>
      intro b hb j
      cases b with
      | nil => simp
      | cons v vs => simp at hb
    | cons x xs ih =>
      intro b hb j
      cases b with
      | nil => simp at hb
      | cons v vs =>
        simp only [List.length_cons] at hb
        cases j with
        | zero => simp
        | succ j2 =>
          simp only [List.zipWith_cons_cons, List.getD_cons_succ]
          exact ih vs (by omega) j2
  have foldl_zipWith_length : ∀ (R : List (ℝ × SpatialData)) (acc : List ℝ),
      (∀ p ∈ R, p.2.values.length = acc.length) →
      (R.foldl (fun a p => List.zipWith (fun x v => x + p.1 * v) a p.2.values)
        acc).length = acc.length := by
    intro R
    induction R with
    | nil =>
      intro acc _
      rfl
    | cons p rest ih =>
      intro acc hlen
      simp only [List.foldl_cons]
      have h1 : (List.zipWith (fun x v => x + p.1 * v) acc p.2.values).length =
          acc.length := by
        simp [List.length_zipWith, hlen p (by simp)]
      rw [ih _ (fun q hq => by rw [hlen q (by simp [hq]), ← h1]), h1]
  have foldl_zipWith_getD : ∀ (R : List (ℝ × SpatialData)) (acc : List ℝ),
      (∀ p ∈ R, p.2.values.length = acc.length) → ∀ j : ℕ,
      (R.foldl (fun a p => List.zipWith (fun x v => x + p.1 * v) a p.2.values)
        acc).getD j 0 =
        acc.getD j 0 + (R.map (fun p => p.1 * p.2.values.getD j 0)).sum := by
    intro R
    induction R with
    | nil =>
      intro acc _ j
      simp
    | cons p rest ih =>
      intro acc hlen j
      simp only [List.foldl_cons, List.map_cons, List.sum_cons]
      have hpl := hlen p (by simp)
      have hzl : (List.zipWith (fun x v => x + p.1 * v) acc p.2.values).length =
          acc.length := by
        simp [List.length_zipWith, hpl]
      rw [ih _ (fun q hq => by rw [hlen q (by simp [hq]), ← hzl]) j]
      rw [zipWith_add_getD p.1 acc p.2.values hpl.symm j]
      ring
  have replicate_getD_zero :
      ∀ (n j : ℕ), (List.replicate n (0 : ℝ)).getD j 0 = 0 := by
    intro n
    induction n with
    | zero =>
      intro j
      simp
    | succ n2 ih =>
      intro j
      cases j with
      | zero => simp [List.replicate]
      | succ j2 => simpa [List.replicate] using ih j2
  have htget : targets.get ⟨m.target_index, hidx⟩ = t := by
    rw [List.getElem?_eq_getElem hidx, Option.some.injEq] at ht
    simpa [List.get_eq_getElem] using ht
  constructor
  · intro hR
    simp only [Interpolator.interpolate_idw_loop, dif_pos hidx, htget, hfb,
      Bool.false_eq_true, if_false, idw_collect_eq, hR, List.map_nil]
  · intro hR
    obtain ⟨r, R2, hReq⟩ := List.exists_cons_of_ne_nil hR
    have hmem : ∀ p ∈ resolved_neighbors cfg sources t m.neighbors,
        p.2.values.length = L :=
      fun p hp => huni p.2 (resolved_neighbors_snd_mem hp)
    have hrL : r.2.values.length = L := hmem r (by rw [hReq]; simp)
    have hlenrep : ∀ p ∈ resolved_neighbors cfg sources t m.neighbors,
        p.2.values.length = (List.replicate r.2.values.length (0 : ℝ)).length := by
      intro p hp
      simp [hrL, hmem p hp]
    have hsumslen : ((resolved_neighbors cfg sources t m.neighbors).foldl
        (fun a p => List.zipWith (fun x v => x + p.1 * v) a p.2.values)
        (List.replicate r.2.values.length 0)).length = r.2.values.length := by
      rw [foldl_zipWith_length _ _ hlenrep]
      simp
    refine ⟨((resolved_neighbors cfg sources t m.neighbors).foldl
        (fun a p => List.zipWith (fun x v => x + p.1 * v) a p.2.values)
        (List.replicate r.2.values.length 0)).map
          (fun v => v / ((resolved_neighbors cfg sources t m.neighbors).map
            Prod.fst).sum), ?_, ?_, ?_⟩
    · rw [List.length_map, hsumslen, hrL]
    · intro j hj
      have hjs : j < ((resolved_neighbors cfg sources t m.neighbors).foldl
          (fun a p => List.zipWith (fun x v => x + p.1 * v) a p.2.values)
          (List.replicate r.2.values.length 0)).length := by
        omega
      rw [List.getD_eq_getElem?_getD, List.getElem?_map,
        List.getElem?_eq_getElem hjs]
      simp only [Option.map_some', Option.getD_some]
      have hgd : ((resolved_neighbors cfg sources t m.neighbors).foldl
          (fun a p => List.zipWith (fun x v => x + p.1 * v) a p.2.values)
          (List.replicate r.2.values.length 0)).getD j 0 =
          ((resolved_neighbors cfg sources t m.neighbors).map
            (fun p => p.1 * p.2.values.getD j 0)).sum := by
        rw [foldl_zipWith_getD _ _ hlenrep j, replicate_getD_zero]
        ring
      rw [List.getD_eq_getElem?_getD, List.getElem?_eq_getElem hjs] at hgd
      simp only [Option.getD_some] at hgd
      rw [hgd]
    · simp only [Interpolator.interpolate_idw_loop, dif_pos hidx, htget, hfb,
        Bool.false_eq_true, if_false, idw_collect_eq, hReq, List.map_cons]
      have hzip : (((r :: R2).map Prod.fst).zip (r.2 :: R2.map Prod.snd)) =
          r :: R2 := by
        simpa using zip_map_fst_snd (r :: R2)
      simp only [List.map_cons] at hzip
      rw [hzip]
      cases hrec : Interpolator.interpolate_idw_loop cfg sources targets ms <;>
        simp [Except.map, hrec, hReq]

/-- Witness for C4: a single non-fallback mapping whose one neighbor is the
coincident single source. -/
theorem idw_weighting_claim_witness :
    (resolved_neighbors cfg_a [pt_origin] pt_origin [(0, 0, 0)] = [] →
      Interpolator.interpolate_idw_loop cfg_a [pt_origin] [pt_origin]
          [⟨0, 0, [(0, 0, 0)], 0, false⟩] =
        Interpolator.interpolate_idw_loop cfg_a [pt_origin] [pt_origin] []) ∧
    (resolved_neighbors cfg_a [pt_origin] pt_origin [(0, 0, 0)] ≠ [] →
      ∃ vals : List ℝ, vals.length = 1 ∧
        (∀ j, j < 1 → vals.getD j 0 =
          ((resolved_neighbors cfg_a [pt_origin] pt_origin [(0, 0, 0)]).map
             (fun p => p.1 * p.2.values.getD j 0)).sum /
           ((resolved_neighbors cfg_a [pt_origin] pt_origin [(0, 0, 0)]).map
             Prod.fst).sum) ∧
        Interpolator.interpolate_idw_loop cfg_a [pt_origin] [pt_origin]
            [⟨0, 0, [(0, 0, 0)], 0, false⟩] =
          Except.map (fun res => { pt_origin with values := vals } :: res)
            (Interpolator.interpolate_idw_loop cfg_a [pt_origin] [pt_origin] [])) :=
  @idw_weighting_claim cfg_a [pt_origin] [pt_origin]
    ⟨0, 0, [(0, 0, 0)], 0, false⟩ [] 1 pt_origin
    (by
      intro s hsm
      rw [List.mem_singleton] at hsm
      subst hsm
      rfl)
    rfl (by decide) rfl


/-- C5: `interpolate` raises the NoInterpolation error — in both NN and IDW
modes — exactly when the produced result list is empty; with valid target
indices (and one-neighbor fallback mappings) the mapping loops always
return (source-resolution failures only omit individual targets, they never
abort the run). -/
theorem no_interpolation_claim (cfg : RegridConfig) (targets : List SpatialData)
    (nn_ms : List NNMapping) (idw_ms : List IDWMapping)
    (s0 : SpatialData) (srest : List SpatialData)
    (huni : ∀ p ∈ s0 :: srest, p.values.length = s0.values.length) :
    (cfg.interp_method = .NEAREST_NEIGHBOR →
      (∀ m ∈ nn_ms, m.target_index < targets.length) →
      ∃ l, Interpolator.interpolate_nn_loop (s0 :: srest) targets nn_ms = .ok l ∧
        (Interpolator.interpolate cfg (s0 :: srest) targets nn_ms idw_ms =
          .error "No points interpolated in NN mode" ↔ l = []) ∧
        (l ≠ [] →
          Interpolator.interpolate cfg (s0 :: srest) targets nn_ms idw_ms = .ok l)) ∧
    (cfg.interp_method = .INVERSE_DISTANCE_WEIGHTED →
      (∀ m ∈ idw_ms, m.target_index < targets.length ∧
        (m.is_fallback = true → m.neighbors.length = 1)) →
      ∃ l, Interpolator.interpolate_idw_loop cfg (s0 :: srest) targets idw_ms = .ok l ∧
        (Interpolator.interpolate cfg (s0 :: srest) targets nn_ms idw_ms =
          .error "No points interpolated in IDW mode" ↔ l = []) ∧
        (l ≠ [] →
          Interpolator.interpolate cfg (s0 :: srest) targets nn_ms idw_ms = .ok l)) := by
  have nn_total : ∀ ms : List NNMapping,
      (∀ m ∈ ms, m.target_index < targets.length) →
      ∃ l, Interpolator.interpolate_nn_loop (s0 :: srest) targets ms = .ok l := by
    intro ms
    induction ms with
    | nil => exact fun _ => ⟨[], rfl⟩
    | cons m rest ih =>
      intro h
      obtain ⟨l, hl⟩ := ih (fun x hx => h x (by simp [hx]))
      have hm := h m (by simp)
      cases hfc : Interpolator.find_and_copy_source_values (s0 :: srest)
          (targets.get ⟨m.target_index, hm⟩) m.source_lon m.source_lat with
      | none =>
        exact ⟨l, by simp only [Interpolator.interpolate_nn_loop, dif_pos hm, hfc, hl]⟩
      | some vals =>
        exact ⟨_, by
          simp only [Interpolator.interpolate_nn_loop, dif_pos hm, hfc, hl]
          rfl⟩
  have idw_total : ∀ ms : List IDWMapping,
      (∀ m ∈ ms, m.target_index < targets.length ∧
        (m.is_fallback = true → m.neighbors.length = 1)) →
      ∃ l, Interpolator.interpolate_idw_loop cfg (s0 :: srest) targets ms = .ok l := by
    intro ms
    induction ms with
    | nil => exact fun _ => ⟨[], rfl⟩
    | cons m rest ih =>
      intro h
      obtain ⟨l, hl⟩ := ih (fun x hx => h x (by simp [hx]))
      obtain ⟨hmi, hmf⟩ := h m (by simp)
      cases hfb : m.is_fallback with
      | true =>
        obtain ⟨nb, hnb⟩ := List.length_eq_one.mp (hmf hfb)
        obtain ⟨slon, slat, d⟩ := nb
        cases hfc : Interpolator.find_and_copy_source_values (s0 :: srest)
            (targets.get ⟨m.target_index, hmi⟩) slon slat with
        | none =>
          exact ⟨l, by
            simp only [Interpolator.interpolate_idw_loop, dif_pos hmi, hfb, if_true,
              hnb, hfc, hl]⟩
        | some vals =>
          exact ⟨_, by
            simp only [Interpolator.interpolate_idw_loop, dif_pos hmi, hfb, if_true,
              hnb, hfc, hl]
            rfl⟩
      | false =>
        cases hcol : Interpolator.idw_collect cfg (s0 :: srest)
            (targets.get ⟨m.target_index, hmi⟩) m.neighbors with
        | mk ws ss =>
          cases ss with
          | nil =>
            exact ⟨l, by
              simp only [Interpolator.interpolate_idw_loop, dif_pos hmi, hfb,
                Bool.false_eq_true, if_false, hcol, hl]⟩
          | cons s0 srest =>
            exact ⟨_, by
              simp only [Interpolator.interpolate_idw_loop, dif_pos hmi, hfb,
                Bool.false_eq_true, if_false, hcol, hl]
              rfl⟩
  have hall : ((s0 :: srest).all fun p => p.values.length == s0.values.length) = true :=
    List.all_eq_true.mpr (fun p hp => beq_iff_eq.mpr (huni p hp))
  constructor
  · intro hmethod hidx
    have hdisp : Interpolator.interpolate cfg (s0 :: srest) targets nn_ms idw_ms =
        Interpolator.interpolate_nearest_neighbor (s0 :: srest) targets nn_ms := by
      simp only [Interpolator.interpolate, hall, if_true, hmethod]
    obtain ⟨l, hl⟩ := nn_total nn_ms hidx
    cases l with
    | nil =>
      have herr : Interpolator.interpolate_nearest_neighbor (s0 :: srest) targets nn_ms =
          .error "No points interpolated in NN mode" := by
        unfold Interpolator.interpolate_nearest_neighbor
        rw [hl]
      exact ⟨[], hl, by rw [hdisp, herr]; exact ⟨fun _ => rfl, fun _ => rfl⟩,
        fun hne => absurd rfl hne⟩
    | cons r rs =>
      have hok : Interpolator.interpolate_nearest_neighbor (s0 :: srest) targets nn_ms =
          .ok (r :: rs) := by
        unfold Interpolator.interpolate_nearest_neighbor
        rw [hl]
      refine ⟨r :: rs, hl, ?_, fun _ => by rw [hdisp, hok]⟩
      rw [hdisp, hok]
      exact ⟨fun hcon => absurd hcon (by simp), fun hcon => absurd hcon (by simp)⟩
  · intro hmethod hidx
    have hdisp : Interpolator.interpolate cfg (s0 :: srest) targets nn_ms idw_ms =
        Interpolator.interpolate_idw cfg (s0 :: srest) targets idw_ms := by
      simp only [Interpolator.interpolate, hall, if_true, hmethod]
    obtain ⟨l, hl⟩ := idw_total idw_ms hidx
    cases l with
    | nil =>
      have herr : Interpolator.interpolate_idw cfg (s0 :: srest) targets idw_ms =
          .error "No points interpolated in IDW mode" := by
        unfold Interpolator.interpolate_idw
        rw [hl]
      exact ⟨[], hl, by rw [hdisp, herr]; exact ⟨fun _ => rfl, fun _ => rfl⟩,
        fun hne => absurd rfl hne⟩
    | cons r rs =>
      have hok : Interpolator.interpolate_idw cfg (s0 :: srest) targets idw_ms =
          .ok (r :: rs) := by
        unfold Interpolator.interpolate_idw
        rw [hl]
      refine ⟨r :: rs, hl, ?_, fun _ => by rw [hdisp, hok]⟩
      rw [hdisp, hok]
      exact ⟨fun hcon => absurd hcon (by simp), fun hcon => absurd hcon (by simp)⟩

/-- Witness for C5: a single NN mapping whose source resolution fails on
the `time_step` (source has time step 1, target 2) — the loop returns the
empty list without aborting and `interpolate` raises the NN
NoInterpolation error. -/
theorem no_interpolation_claim_witness :
    ∃ l, Interpolator.interpolate_nn_loop [pt_origin] [pt_time2]
        [⟨0, 0, 0, 0, 0, 0⟩] = .ok l ∧
      (Interpolator.interpolate cfg_nn [pt_origin] [pt_time2]
          [⟨0, 0, 0, 0, 0, 0⟩] [] =
        .error "No points interpolated in NN mode" ↔ l = []) ∧
      (l ≠ [] → Interpolator.interpolate cfg_nn [pt_origin] [pt_time2]
          [⟨0, 0, 0, 0, 0, 0⟩] [] = .ok l) :=
  (no_interpolation_claim cfg_nn [pt_time2] [⟨0, 0, 0, 0, 0, 0⟩] [] pt_origin []
    (by
      intro p hp
      rw [List.mem_singleton] at hp
      subst hp
      rfl)).1 rfl
    (by
      intro mm hm
      rw [List.mem_singleton] at hm
      subst hm
      decide)

/-! ### The round-trip counterexample (claim C8) -/

/-- C8 is refuted: with the two-point set `pts_cx` used as both sources and
targets (Euclidean IDW, radius 250 km, power 1, `min = max = 2`), the IDW
pipeline succeeds, yet the output for target 0 — whose corresponding source
value vector is `[0]` — is `[100 / 111320001] ≈ [8.98e-7]`, farther than
`1e-9` from it.  The claimed 1e-9 round-trip bound for IDW therefore fails
on the code. -/
theorem round_trip_counterexample :
    SpatialIndex.find_idw_neighbors cfg_cx pts_cx pts_cx =
      .ok [⟨0, 0, [(0, 0, 0), (1, 0, 111.32)], 0, false⟩,
           ⟨1, 0, [(1, 0, 0), (0, 0, 111.32)], 1, false⟩] ∧
    Interpolator.interpolate cfg_cx pts_cx pts_cx []
        [⟨0, 0, [(0, 0, 0), (1, 0, 111.32)], 0, false⟩,
         ⟨1, 0, [(1, 0, 0), (0, 0, 111.32)], 1, false⟩] =
      .ok [⟨⟨0, 0⟩, 1, [100 / 111320001]⟩,
           ⟨⟨1, 0⟩, 1, [11132000000 / 111320001]⟩] ∧
    pts_cx[0]? = some ⟨⟨0, 0⟩, 1, [0]⟩ ∧
    (1e-9 : ℝ) < |100 / 111320001 - 0| := by
  have mergeSort_pair : ∀ {α : Type} (le : α → α → Bool) (a b : α),
      [a, b].mergeSort le = if le a b then [a, b] else [b, a] := by
    intro α le a b
    rw [List.mergeSort]
    simp [List.splitInTwo_fst, List.splitInTwo_snd]
    split_ifs with h
    · simp [List.cons_merge_cons, h]
    · simp [List.cons_merge_cons, h]
  have size_t_cast_two : size_t_cast 2 = 2 :=
    size_t_cast_eq (by norm_num) (by norm_num)
  have euclid_dist_eval : ∀ {l1 l2 : ℝ}, |l1| ≤ 360 → |l2| ≤ 360 → ∀ d : ℝ,
      0 ≤ d → (l2 - l1) * (l2 - l1) = d * d →
      utils.compute_distance l1 0 l2 0 .EUCLIDEAN = .ok d := by
    intro l1 l2 h1 h2 d hd hsq
    rw [compute_distance_eq_ok (by norm_num) (by norm_num) h1 h2]
    simp only [Except.ok.injEq, utils.dist_val, utils.euclidean_deg]
    rw [show (l2 - l1) * (l2 - l1) + ((0 : ℝ) - 0) * (0 - 0) = d * d by
      rw [← hsq]; ring]
    exact Real.sqrt_mul_self hd
  have km2deg_250_0 : utils.km_to_degrees 250 0 = .ok (250 / 111.32) := by
    rw [km_to_degrees_eq_ok (by norm_num) (by norm_num)]
    simp only [Except.ok.injEq, utils.km_to_degrees_val, utils.cos_floor,
      cos_to_radians_zero]
    rw [if_neg (by norm_num)]
    norm_num
  have cd00 : utils.compute_distance 0 0 0 0 .EUCLIDEAN = .ok 0 :=
    euclid_dist_eval (by norm_num) (by norm_num) 0 (le_refl 0) (by norm_num)
  have cx_cands_t0 :
      SpatialIndex.idw_candidates cfg_cx ⟨⟨0, 0⟩, 1, [0]⟩
        [⟨⟨0, 0⟩, 1, [0]⟩, ⟨⟨1, 0⟩, 1, [100]⟩] = .ok [(0, 0, 0), (1, 0, 1)] := by
    have cd1 : utils.compute_distance 0 0 1 0 .EUCLIDEAN = .ok 1 :=
      euclid_dist_eval (by norm_num) (by norm_num) 1 (by norm_num) (by norm_num)
    simp only [SpatialIndex.idw_candidates,
      show cfg_cx.distance_metric = DistanceMetric.EUCLIDEAN from rfl,
      show cfg_cx.radius = (250 : ℝ) from rfl, cd00, cd1, km2deg_250_0]
    rw [if_pos (by norm_num), if_pos (by norm_num)]
  have cx_cands_t1 :
      SpatialIndex.idw_candidates cfg_cx ⟨⟨1, 0⟩, 1, [100]⟩
        [⟨⟨0, 0⟩, 1, [0]⟩, ⟨⟨1, 0⟩, 1, [100]⟩] = .ok [(0, 0, 1), (1, 0, 0)] := by
    have cd1 : utils.compute_distance 1 0 0 0 .EUCLIDEAN = .ok 1 :=
      euclid_dist_eval (by norm_num) (by norm_num) 1 (by norm_num) (by norm_num)
    have cd0 : utils.compute_distance 1 0 1 0 .EUCLIDEAN = .ok 0 :=
      euclid_dist_eval (by norm_num) (by norm_num) 0 (le_refl 0) (by norm_num)
    simp only [SpatialIndex.idw_candidates,
      show cfg_cx.distance_metric = DistanceMetric.EUCLIDEAN from rfl,
      show cfg_cx.radius = (250 : ℝ) from rfl, cd0, cd1, km2deg_250_0]
    rw [if_pos (by norm_num), if_pos (by norm_num)]
  have cx_st_t0 :
      SpatialIndex.idw_sort_truncate cfg_cx ⟨⟨0, 0⟩, 1, [0]⟩ [(0, 0, 0), (1, 0, 1)] =
        [(0, 0, 0), (1, 0, 111.32)] := by
    simp only [SpatialIndex.idw_sort_truncate, mergeSort_pair,
      show cfg_cx.max_points = (2 : ℤ) from rfl, size_t_cast_two,
      show cfg_cx.distance_metric = DistanceMetric.EUCLIDEAN from rfl,
      cos_to_radians_zero]
    rw [if_pos (decide_eq_true (show (0 : ℝ) ≤ 1 by norm_num))]
    norm_num [List.map_cons, List.map_nil]
  have cx_st_t1 :
      SpatialIndex.idw_sort_truncate cfg_cx ⟨⟨1, 0⟩, 1, [100]⟩ [(0, 0, 1), (1, 0, 0)] =
        [(1, 0, 0), (0, 0, 111.32)] := by
    simp only [SpatialIndex.idw_sort_truncate, mergeSort_pair,
      show cfg_cx.max_points = (2 : ℤ) from rfl, size_t_cast_two,
      show cfg_cx.distance_metric = DistanceMetric.EUCLIDEAN from rfl,
      cos_to_radians_zero]
    rw [if_neg (show ¬(decide ((1 : ℝ) ≤ 0) = true) by
      norm_num [decide_eq_true_eq])]
    norm_num [List.map_cons, List.map_nil]
  have cx_tgt0 :
      SpatialIndex.idw_target cfg_cx [⟨⟨0, 0⟩, 1, [0]⟩, ⟨⟨1, 0⟩, 1, [100]⟩] 0
        ⟨⟨0, 0⟩, 1, [0]⟩ = .ok ⟨0, 0, [(0, 0, 0), (1, 0, 111.32)], 0, false⟩ := by
    simp only [SpatialIndex.idw_target, cx_cands_t0,
      show cfg_cx.min_points = (2 : ℤ) from rfl, size_t_cast_two]
    rw [if_neg (by norm_num)]
    rw [cx_st_t0]
    rw [idw_emit_ok (by simp)]
  have cx_tgt1 :
      SpatialIndex.idw_target cfg_cx [⟨⟨0, 0⟩, 1, [0]⟩, ⟨⟨1, 0⟩, 1, [100]⟩] 1
        ⟨⟨1, 0⟩, 1, [100]⟩ = .ok ⟨1, 0, [(1, 0, 0), (0, 0, 111.32)], 1, false⟩ := by
    simp only [SpatialIndex.idw_target, cx_cands_t1,
      show cfg_cx.min_points = (2 : ℤ) from rfl, size_t_cast_two]
    rw [if_neg (by norm_num)]
    rw [cx_st_t1]
    rw [idw_emit_ok (by simp)]
  have cx_find :
      SpatialIndex.find_idw_neighbors cfg_cx pts_cx pts_cx =
        .ok [⟨0, 0, [(0, 0, 0), (1, 0, 111.32)], 0, false⟩,
             ⟨1, 0, [(1, 0, 0), (0, 0, 111.32)], 1, false⟩] := by
    show SpatialIndex.find_idw_neighbors cfg_cx
      [⟨⟨0, 0⟩, 1, [0]⟩, ⟨⟨1, 0⟩, 1, [100]⟩]
      [⟨⟨0, 0⟩, 1, [0]⟩, ⟨⟨1, 0⟩, 1, [100]⟩] = _
    simp only [SpatialIndex.find_idw_neighbors, SpatialIndex.idw_loop, zero_add,
      cx_tgt0, cx_tgt1]
  have cx_fsr_00 :
      Interpolator.find_source_record
        [⟨⟨0, 0⟩, 1, [0]⟩, ⟨⟨1, 0⟩, 1, [100]⟩] 1 0 0 = some ⟨⟨0, 0⟩, 1, [0]⟩ := by
    simp only [Interpolator.find_source_record]
    split_ifs with h1 h2 <;>
      first
        | rfl
        | exact absurd ⟨by norm_num, by norm_num, by trivial⟩ h1
  have cx_fsr_10 :
      Interpolator.find_source_record
        [⟨⟨0, 0⟩, 1, [0]⟩, ⟨⟨1, 0⟩, 1, [100]⟩] 1 1 0 = some ⟨⟨1, 0⟩, 1, [100]⟩ := by
    simp only [Interpolator.find_source_record]
    split_ifs with h1 h2 <;>
      first
        | rfl
        | exact absurd h1.1 (by norm_num)
        | exact absurd ⟨by norm_num, by norm_num, by trivial⟩ h2
  have cx_col0 :
      Interpolator.idw_collect cfg_cx [⟨⟨0, 0⟩, 1, [0]⟩, ⟨⟨1, 0⟩, 1, [100]⟩]
        ⟨⟨0, 0⟩, 1, [0]⟩ [(0, 0, 0), (1, 0, 111.32)] =
        ([1e6, 1 / 111.32], [⟨⟨0, 0⟩, 1, [0]⟩, ⟨⟨1, 0⟩, 1, [100]⟩]) := by
    simp only [Interpolator.idw_collect, cx_fsr_00, cx_fsr_10,
      Interpolator.idw_weight, show cfg_cx.power = (1 : ℝ) from rfl]
    rw [if_neg (show ¬((1e-6 : ℝ) < 0) by norm_num)]
    rw [if_pos (show (1e-6 : ℝ) < 111.32 by norm_num)]
    rw [Real.rpow_one]
  have cx_col1 :
      Interpolator.idw_collect cfg_cx [⟨⟨0, 0⟩, 1, [0]⟩, ⟨⟨1, 0⟩, 1, [100]⟩]
        ⟨⟨1, 0⟩, 1, [100]⟩ [(1, 0, 0), (0, 0, 111.32)] =
        ([1e6, 1 / 111.32], [⟨⟨1, 0⟩, 1, [100]⟩, ⟨⟨0, 0⟩, 1, [0]⟩]) := by
    simp only [Interpolator.idw_collect, cx_fsr_00, cx_fsr_10,
      Interpolator.idw_weight, show cfg_cx.power = (1 : ℝ) from rfl]
    rw [if_neg (show ¬((1e-6 : ℝ) < 0) by norm_num)]
    rw [if_pos (show (1e-6 : ℝ) < 111.32 by norm_num)]
    rw [Real.rpow_one]
  have cx_loop :
      Interpolator.interpolate_idw_loop cfg_cx
        [⟨⟨0, 0⟩, 1, [0]⟩, ⟨⟨1, 0⟩, 1, [100]⟩]
        [⟨⟨0, 0⟩, 1, [0]⟩, ⟨⟨1, 0⟩, 1, [100]⟩]
        [⟨0, 0, [(0, 0, 0), (1, 0, 111.32)], 0, false⟩,
         ⟨1, 0, [(1, 0, 0), (0, 0, 111.32)], 1, false⟩] =
        .ok [⟨⟨0, 0⟩, 1, [100 / 111320001]⟩,
             ⟨⟨1, 0⟩, 1, [11132000000 / 111320001]⟩] := by
    simp only [Interpolator.interpolate_idw_loop, List.length_cons, List.length_nil,
      List.get_eq_getElem, List.getElem_cons_zero, List.getElem_cons_succ,
      Bool.false_eq_true, if_false, cx_col0, cx_col1, List.zip_cons_cons,
      List.zip_nil_right, List.zip_nil_left, List.foldl_cons, List.foldl_nil,
      List.replicate, List.zipWith_cons_cons, List.zipWith_nil_right,
      List.zipWith_nil_left, List.sum_cons, List.sum_nil]
    norm_num
  have cx_interp :
      Interpolator.interpolate cfg_cx
        [⟨⟨0, 0⟩, 1, [0]⟩, ⟨⟨1, 0⟩, 1, [100]⟩]
        [⟨⟨0, 0⟩, 1, [0]⟩, ⟨⟨1, 0⟩, 1, [100]⟩] []
        [⟨0, 0, [(0, 0, 0), (1, 0, 111.32)], 0, false⟩,
         ⟨1, 0, [(1, 0, 0), (0, 0, 111.32)], 1, false⟩] =
        .ok [⟨⟨0, 0⟩, 1, [100 / 111320001]⟩,
             ⟨⟨1, 0⟩, 1, [11132000000 / 111320001]⟩] := by
    simp only [Interpolator.interpolate,
      show cfg_cx.interp_method = InterpolationMethod.INVERSE_DISTANCE_WEIGHTED from rfl]
    rw [if_pos (by decide)]
    unfold Interpolator.interpolate_idw
    rw [cx_loop]
  exact ⟨cx_find, cx_interp, by simp [pts_cx],
    by rw [sub_zero, abs_of_nonneg (by norm_num)]; norm_num⟩

/-! ### The amended round-trip property (claim C8) -/


/-- C8 (amended): with the source set doubling as the target set, under the
separation hypotheses of `RoundTripHyps` (valid coordinates; zero
configured-metric distance only between coordinate-equal points; points
within the `1e-6` resolution tolerance at the same time step carry equal
values; uniform value-vector length) and a non-negative radius, the NN
pipeline reproduces the sources exactly; the IDW pipeline reproduces them
exactly when `max_points = min_points = 1` (the general `1e-9` bound of the
original claim is refuted by the counterexample). -/
theorem round_trip_claim (cfg : RegridConfig) (sources : List SpatialData)
    (hne : sources ≠ []) (H : RoundTripHyps cfg sources) (hrad : 0 ≤ cfg.radius) :
    (cfg.interp_method = .NEAREST_NEIGHBOR →
      ∃ ms, SpatialIndex.find_nearest_neighbors cfg sources sources = .ok ms ∧
        Interpolator.interpolate cfg sources sources ms [] = .ok sources) ∧
    (cfg.interp_method = .INVERSE_DISTANCE_WEIGHTED →
      cfg.max_points = 1 → cfg.min_points = 1 →
      ∃ ms, SpatialIndex.find_idw_neighbors cfg sources sources = .ok ms ∧
        Interpolator.interpolate cfg sources sources [] ms = .ok sources) := by
  have fsr_finds : ∀ (time : ℤ) (lon lat : ℝ)
      (l : List SpatialData) (t : SpatialData), t ∈ l →
      |t.gridPoint.longitude - lon| < 1e-6 →
      |t.gridPoint.latitude - lat| < 1e-6 → t.time_step = time →
      ∃ src, Interpolator.find_source_record l time lon lat = some src ∧
        src ∈ l ∧ |src.gridPoint.longitude - lon| < 1e-6 ∧
        |src.gridPoint.latitude - lat| < 1e-6 ∧ src.time_step = time := by
    intro time lon lat
    intro l
    induction l with
    | nil =>
      intro t ht _ _ _
      simp at ht
    | cons s rest ih =>
      intro t ht h1 h2 h3
      by_cases hc : |s.gridPoint.longitude - lon| < 1e-6 ∧
          |s.gridPoint.latitude - lat| < 1e-6 ∧ s.time_step = time
      · refine ⟨s, ?_, by simp, hc.1, hc.2.1, hc.2.2⟩
        unfold Interpolator.find_source_record
        rw [if_pos hc]
      · have ht2 : t ∈ rest := by
          rcases List.mem_cons.mp ht with rfl | hmem
          · exact absurd ⟨h1, h2, h3⟩ hc
          · exact hmem
        obtain ⟨src, hfind, hmem, hs1, hs2, hs3⟩ := ih t ht2 h1 h2 h3
        refine ⟨src, ?_, List.mem_cons_of_mem _ hmem, hs1, hs2, hs3⟩
        unfold Interpolator.find_source_record
        rw [if_neg hc, hfind]
  have fcs_round_trip : ∀ {cfg : RegridConfig} {sources : List SpatialData},
      RoundTripHyps cfg sources → ∀ {t : SpatialData}, t ∈ sources →
      Interpolator.find_and_copy_source_values sources t
        t.gridPoint.longitude t.gridPoint.latitude = some t.values := by
    intro cfg sources H t ht
    obtain ⟨-, -, Hsep, -⟩ := H
    obtain ⟨src, hfind, hmem, h1, h2, h3⟩ :=
      fsr_finds t.time_step t.gridPoint.longitude t.gridPoint.latitude sources t ht
        (by rw [sub_self, abs_zero]; norm_num)
        (by rw [sub_self, abs_zero]; norm_num) rfl
    have hv : src.values = t.values := Hsep src hmem t ht h3 h1 h2
    simp only [Interpolator.find_and_copy_source_values, hfind, Option.map_some']
    rw [hv]
  have nn_loop_cons_eq : ∀ (sources targets : List SpatialData) (m : NNMapping)
      (ms : List NNMapping) (h : m.target_index < targets.length),
      Interpolator.interpolate_nn_loop sources targets (m :: ms) =
        match Interpolator.find_and_copy_source_values sources
            (targets.get ⟨m.target_index, h⟩) m.source_lon m.source_lat with
        | some vals =>
          match Interpolator.interpolate_nn_loop sources targets ms with
          | .error e => .error e
          | .ok res =>
            .ok ({ targets.get ⟨m.target_index, h⟩ with values := vals } :: res)
        | none => Interpolator.interpolate_nn_loop sources targets ms := by
    intro sources targets m ms h
    simp only [Interpolator.interpolate_nn_loop]
    rw [dif_pos h]
  have nn_rt_loop : ∀ {cfg : RegridConfig} {sources : List SpatialData},
      RoundTripHyps cfg sources →
      ∀ (ms : List NNMapping) (k : ℕ),
        (∀ j m, ms[j]? = some m → m.target_index = k + j ∧
          ∃ tj, sources[k + j]? = some tj ∧
            m.source_lon = tj.gridPoint.longitude ∧
            m.source_lat = tj.gridPoint.latitude) →
        k + ms.length = sources.length →
        Interpolator.interpolate_nn_loop sources sources ms =
          .ok (sources.drop k) := by
    intro cfg sources H
    intro ms
    induction ms with
    | nil =>
      intro k _ hk
      simp only [List.length_nil, Nat.add_zero] at hk
      rw [List.drop_eq_nil_of_le (le_of_eq hk.symm)]
      rfl
    | cons m ms2 ih =>
      intro k hj hk
      obtain ⟨hidx, tj, htj, hlon, hlat⟩ := hj 0 m (by simp)
      rw [Nat.add_zero] at hidx htj
      subst hidx
      obtain ⟨hklt, hgg⟩ := List.getElem?_eq_some.mp htj
      have htjmem : tj ∈ sources := List.getElem?_mem htj
      have hget : sources.get ⟨m.target_index, hklt⟩ = tj := hgg
      rw [nn_loop_cons_eq sources sources m ms2 hklt, hget]
      have hfcs : Interpolator.find_and_copy_source_values sources tj
          m.source_lon m.source_lat = some tj.values := by
        rw [hlon, hlat]
        exact fcs_round_trip H htjmem
      have hrec : Interpolator.interpolate_nn_loop sources sources ms2 =
          .ok (sources.drop (m.target_index + 1)) := by
        refine ih (m.target_index + 1) ?_ (by simp only [List.length_cons] at hk; omega)
        intro j m2 hm2
        obtain ⟨hi2, tj2, htj2, hl2, hl2l⟩ := hj (j + 1) m2 (by simpa using hm2)
        refine ⟨by omega, tj2, ?_, hl2, hl2l⟩
        have heq : m.target_index + 1 + j = m.target_index + (j + 1) := by omega
        rw [heq]
        exact htj2
      simp only [hfcs, hrec]
      have hdrop : sources.drop m.target_index =
          tj :: sources.drop (m.target_index + 1) := by
        rw [List.drop_eq_getElem_cons hklt, hgg]
      rw [hdrop]
  have self_admitted : ∀ {cfg : RegridConfig} {t : SpatialData},
      valid_point t → 0 ≤ cfg.radius → admitted cfg t t := by
    intro cfg t hv hrad
    unfold admitted idw_threshold
    rw [dist_pt_self]
    cases cfg.distance_metric
    · exact km_to_degrees_val_nonneg hrad hv.1
    · exact hrad
  have mergeSort_head_min : ∀ {l : List (ℝ × ℝ × ℝ)} {h0 : ℝ × ℝ × ℝ}
      {rest : List (ℝ × ℝ × ℝ)},
      l.mergeSort (fun a b => decide (a.2.2 ≤ b.2.2)) = h0 :: rest →
      h0 ∈ l ∧ ∀ e ∈ l, h0.2.2 ≤ e.2.2 := by
    intro l h0 rest heq
    have hsorted : (h0 :: rest).Pairwise (fun a b : ℝ × ℝ × ℝ => a.2.2 ≤ b.2.2) := by
      rw [← heq]
      have hp := @List.sorted_mergeSort _
        (fun a b : ℝ × ℝ × ℝ => decide (a.2.2 ≤ b.2.2))
        (fun a b c hab hbc => by
          simp only [decide_eq_true_eq] at hab hbc ⊢
          exact le_trans hab hbc)
        (fun a b => by
          simp only [Bool.or_eq_true, decide_eq_true_eq]
          exact le_total _ _)
        l
      exact hp.imp (fun h => of_decide_eq_true h)
    constructor
    · have hm : h0 ∈ l.mergeSort (fun a b => decide (a.2.2 ≤ b.2.2)) := by
        rw [heq]
        exact List.mem_cons_self _ _
      exact List.mem_mergeSort.mp hm
    · intro e he
      have he2 : e ∈ h0 :: rest := by
        rw [← heq]
        exact List.mem_mergeSort.mpr he
      rcases List.mem_cons.mp he2 with rfl | he3
      · exact le_refl _
      · exact (List.pairwise_cons.mp hsorted).1 e he3
  have idw_sort_truncate_max1 : ∀ {cfg : RegridConfig} (t : SpatialData)
      {cands : List (ℝ × ℝ × ℝ)}, cands ≠ [] →
      size_t_cast cfg.max_points = 1 →
      ∃ h0, h0 ∈ cands ∧ (∀ e ∈ cands, h0.2.2 ≤ e.2.2) ∧
        SpatialIndex.idw_sort_truncate cfg t cands =
          [if cfg.distance_metric = .EUCLIDEAN then
            (h0.1, h0.2.1,
              h0.2.2 * 111.32 * Real.cos (utils.to_radians t.gridPoint.latitude))
           else h0] := by
    intro cfg t cands hne hmax
    have hmne : cands.mergeSort (fun a b => decide (a.2.2 ≤ b.2.2)) ≠ [] := by
      apply List.ne_nil_of_length_pos
      rw [List.length_mergeSort]
      exact List.length_pos.mpr hne
    obtain ⟨h0, rest, hms⟩ := List.exists_cons_of_ne_nil hmne
    obtain ⟨hmem, hmin⟩ := mergeSort_head_min hms
    refine ⟨h0, hmem, hmin, ?_⟩
    unfold SpatialIndex.idw_sort_truncate
    simp only [hms, hmax]
    cases rest with
    | nil =>
      have hlen : ¬((1 : ℕ) < (h0 :: ([] : List (ℝ × ℝ × ℝ))).length) := by simp
      rw [if_neg hlen]
      split_ifs <;> simp
    | cons r rs =>
      have hlen : (1 : ℕ) < (h0 :: r :: rs).length := by
        simp only [List.length_cons]
        omega
      have htake : (h0 :: r :: rs).take 1 = [h0] := by
        simp [List.take_succ_cons]
      rw [if_pos hlen, htake]
      split_ifs <;> simp
  have idw_target_rt : ∀ {cfg : RegridConfig} {sources : List SpatialData}
      {s0 : SpatialData} {srest : List SpatialData}, sources = s0 :: srest →
      RoundTripHyps cfg sources → 0 ≤ cfg.radius →
      cfg.max_points = 1 → cfg.min_points = 1 →
      ∀ {t : SpatialData}, t ∈ sources → ∀ i : ℕ,
      ∃ (sh : SpatialData) (d : ℝ), sh ∈ sources ∧ sh.gridPoint = t.gridPoint ∧
        SpatialIndex.idw_target cfg sources i t = .ok
          ⟨t.gridPoint.longitude, t.gridPoint.latitude,
           [(sh.gridPoint.longitude, sh.gridPoint.latitude, d)], i, false⟩ := by
    intro cfg sources s0 srest hs H hrad hmax hmin t ht i
    obtain ⟨Hval, Hzero, -, -⟩ := H
    have hvt : valid_point t := Hval t ht
    have hcands := idw_candidates_eq cfg hvt hrad sources Hval
    set C := ((sources.filter (fun s => decide (admitted cfg t s))).map
      (scan_entry cfg t)) with hCdef
    have htf : t ∈ sources.filter (fun s => decide (admitted cfg t s)) :=
      List.mem_filter.mpr ⟨ht, decide_eq_true (self_admitted hvt hrad)⟩
    have hself : scan_entry cfg t t ∈ C := List.mem_map.mpr ⟨t, htf, rfl⟩
    have hCne : C ≠ [] := List.ne_nil_of_mem hself
    have hmin_cast : size_t_cast cfg.min_points = 1 := by
      rw [hmin]
      exact size_t_cast_one
    have hmax_cast : size_t_cast cfg.max_points = 1 := by
      rw [hmax]
      exact size_t_cast_one
    have hnotlt : ¬ (C.length < size_t_cast cfg.min_points) := by
      rw [hmin_cast]
      have := List.length_pos.mpr hCne
      omega
    obtain ⟨h0, h0mem, h0min, hst⟩ := idw_sort_truncate_max1 t hCne hmax_cast
    obtain ⟨sh, hshf, hsheq⟩ := List.mem_map.mp h0mem
    have hshmem : sh ∈ sources := (List.mem_filter.mp hshf).1
    have hle := h0min _ hself
    have h00 : dist_pt cfg t sh = 0 := by
      have h1 : h0.2.2 = dist_pt cfg t sh := by
        rw [← hsheq]
        rfl
      have h2 : (scan_entry cfg t t).2.2 = dist_pt cfg t t := rfl
      have h3 := dist_pt_nonneg cfg t sh
      have h4 := dist_pt_self cfg t
      rw [h2, h4] at hle
      rw [h1] at hle
      linarith
    have hgp : sh.gridPoint = t.gridPoint := Hzero t ht sh hshmem h00
    refine ⟨sh, (if cfg.distance_metric = .EUCLIDEAN then
        dist_pt cfg t sh * 111.32 * Real.cos (utils.to_radians t.gridPoint.latitude)
      else dist_pt cfg t sh), hshmem, hgp, ?_⟩
    unfold SpatialIndex.idw_target
    simp only [hcands]
    rw [if_neg hnotlt, hst, idw_emit_ok (by split_ifs <;> simp)]
    subst hsheq
    split_ifs with hm <;> simp [scan_entry]
  have idw_rt_find : ∀ {cfg : RegridConfig} {sources : List SpatialData}
      {s0 : SpatialData} {srest : List SpatialData}, sources = s0 :: srest →
      RoundTripHyps cfg sources → 0 ≤ cfg.radius →
      cfg.max_points = 1 → cfg.min_points = 1 →
      ∀ (ts : List SpatialData) (i0 : ℕ), (∀ x ∈ ts, x ∈ sources) →
        ∃ ms, SpatialIndex.idw_loop cfg sources i0 ts = .ok ms ∧
          ms.length = ts.length ∧
          ∀ k m, ms[k]? = some m → m.target_index = i0 + k ∧
            m.is_fallback = false ∧
            ∃ tk sh, ts[k]? = some tk ∧ sh ∈ sources ∧
              sh.gridPoint = tk.gridPoint ∧
              ∃ d, m.neighbors =
                [(sh.gridPoint.longitude, sh.gridPoint.latitude, d)] := by
    intro cfg sources s0 srest hs H hrad hmax hmin ts
    induction ts with
    | nil =>
      intro i0 _
      exact ⟨[], rfl, rfl, by simp⟩
    | cons t trest ih =>
      intro i0 hts
      obtain ⟨sh, d, hshmem, hgp, htgt⟩ :=
        idw_target_rt hs H hrad hmax hmin (hts t (by simp)) i0
      obtain ⟨ms, hloop, hlen, hidx⟩ := ih (i0 + 1) (fun x hx => hts x (by simp [hx]))
      refine ⟨⟨t.gridPoint.longitude, t.gridPoint.latitude,
        [(sh.gridPoint.longitude, sh.gridPoint.latitude, d)], i0, false⟩ :: ms,
        ?_, by simpa using hlen, ?_⟩
      · show SpatialIndex.idw_loop cfg sources i0 (t :: trest) = _
        simp only [SpatialIndex.idw_loop, htgt, hloop]
      · intro k m hk
        match k with
        | 0 =>
          simp only [List.getElem?_cons_zero, Option.some.injEq] at hk
          subst hk
          exact ⟨by simp, rfl, t, sh, by simp, hshmem, hgp, d, rfl⟩
        | k2 + 1 =>
          simp only [List.getElem?_cons_succ] at hk
          obtain ⟨h1, h2, tk, sh2, h3, h4, h5, d2, h6⟩ := hidx k2 m hk
          exact ⟨by rw [h1]; omega, h2, tk, sh2, by simpa using h3, h4, h5, d2, h6⟩
  have idw_weight_pos : ∀ (cfg : RegridConfig) (d : ℝ),
      0 < Interpolator.idw_weight cfg d := by
    intro cfg d
    unfold Interpolator.idw_weight
    split_ifs with h
    · have hd : (0 : ℝ) < d := lt_trans (by norm_num) h
      exact div_pos one_pos (Real.rpow_pos_of_pos hd cfg.power)
    · norm_num
  have single_weight_mean : ∀ {w : ℝ}, w ≠ 0 → ∀ vs : List ℝ,
      (List.zipWith (fun a v => a + w * v) (List.replicate vs.length 0) vs).map
        (fun v => v / w) = vs := by
    intro w hw
    intro vs
    induction vs with
    | nil => rfl
    | cons v rest ih =>
      simp only [List.length_cons, List.replicate_succ, List.zipWith_cons_cons,
        List.map_cons, ih, zero_add, mul_div_cancel_left₀ v hw]
  have idw_loop_cons_nf_eq : ∀ (cfg : RegridConfig)
      (sources targets : List SpatialData) (m : IDWMapping)
      (ms : List IDWMapping) (h : m.target_index < targets.length),
      m.is_fallback = false →
      Interpolator.interpolate_idw_loop cfg sources targets (m :: ms) =
        match Interpolator.idw_collect cfg sources
            (targets.get ⟨m.target_index, h⟩) m.neighbors with
        | (_, []) => Interpolator.interpolate_idw_loop cfg sources targets ms
        | (weights, r0 :: rrest) =>
          match Interpolator.interpolate_idw_loop cfg sources targets ms with
          | .error e => .error e
          | .ok res =>
            .ok ({ targets.get ⟨m.target_index, h⟩ with values :=
              (((weights.zip (r0 :: rrest)).foldl
                (fun acc p => List.zipWith (fun a v => a + p.1 * v) acc p.2.values)
                (List.replicate r0.values.length 0)).map
                  (fun v => v / weights.sum)) } :: res) := by
    intro cfg sources targets m ms h hfb
    simp only [Interpolator.interpolate_idw_loop]
    rw [dif_pos h, hfb]
    simp only [Bool.false_eq_true, if_false]
  have idw_rt_loop : ∀ {cfg : RegridConfig} {sources : List SpatialData},
      RoundTripHyps cfg sources →
      ∀ (ms : List IDWMapping) (k : ℕ),
        (∀ j m, ms[j]? = some m → m.target_index = k + j ∧
          m.is_fallback = false ∧
          ∃ tj sh, sources[k + j]? = some tj ∧ sh ∈ sources ∧
            sh.gridPoint = tj.gridPoint ∧
            ∃ d, m.neighbors =
              [(sh.gridPoint.longitude, sh.gridPoint.latitude, d)]) →
        k + ms.length = sources.length →
        Interpolator.interpolate_idw_loop cfg sources sources ms =
          .ok (sources.drop k) := by
    intro cfg sources H
    intro ms
    induction ms with
    | nil =>
      intro k _ hk
      simp only [List.length_nil, Nat.add_zero] at hk
      rw [List.drop_eq_nil_of_le (le_of_eq hk.symm)]
      rfl
    | cons m ms2 ih =>
      intro k hj hk
      obtain ⟨hidx, hfb, tj, sh, htj, hshmem, hgp, d, hnbrs⟩ := hj 0 m (by simp)
      rw [Nat.add_zero] at hidx htj
      subst hidx
      obtain ⟨hklt, hgg⟩ := List.getElem?_eq_some.mp htj
      have htjmem : tj ∈ sources := List.getElem?_mem htj
      have hget : sources.get ⟨m.target_index, hklt⟩ = tj := hgg
      rw [idw_loop_cons_nf_eq cfg sources sources m ms2 hklt hfb, hget, hnbrs]
      have hlon : sh.gridPoint.longitude = tj.gridPoint.longitude := by rw [hgp]
      have hlat : sh.gridPoint.latitude = tj.gridPoint.latitude := by rw [hgp]
      obtain ⟨src, hfind, hsrcmem, f1, f2, f3⟩ :=
        fsr_finds tj.time_step tj.gridPoint.longitude tj.gridPoint.latitude sources
          tj htjmem (by rw [sub_self, abs_zero]; norm_num)
          (by rw [sub_self, abs_zero]; norm_num) rfl
      have hvals : src.values = tj.values := by
        obtain ⟨-, -, Hsep, -⟩ := H
        exact Hsep src hsrcmem tj htjmem f3 f1 f2
      have hcol : Interpolator.idw_collect cfg sources tj
          [(sh.gridPoint.longitude, sh.gridPoint.latitude, d)] =
          ([Interpolator.idw_weight cfg d], [src]) := by
        simp only [Interpolator.idw_collect, hlon, hlat, hfind]
      have hrec : Interpolator.interpolate_idw_loop cfg sources sources ms2 =
          .ok (sources.drop (m.target_index + 1)) := by
        refine ih (m.target_index + 1) ?_ (by simp only [List.length_cons] at hk; omega)
        intro j m2 hm2
        obtain ⟨hi2, hf2, tj2, sh2, htj2, hm3, hm4, d2, hm5⟩ :=
          hj (j + 1) m2 (by simpa using hm2)
        refine ⟨by omega, hf2, tj2, sh2, ?_, hm3, hm4, d2, hm5⟩
        have heq : m.target_index + 1 + j = m.target_index + (j + 1) := by omega
        rw [heq]
        exact htj2
      simp only [hcol, hrec, List.zip_cons_cons, List.zip_nil_right, List.foldl_cons,
        List.foldl_nil, List.sum_cons, List.sum_nil, add_zero]
      rw [single_weight_mean (ne_of_gt (idw_weight_pos cfg d)) src.values, hvals]
      have hdrop : sources.drop m.target_index =
          tj :: sources.drop (m.target_index + 1) := by
        rw [List.drop_eq_getElem_cons hklt, hgg]
      rw [hdrop]
  obtain ⟨s0, srest, hseq⟩ := List.exists_cons_of_ne_nil hne
  subst hseq
  have hvs := H.1
  have hall : ((s0 :: srest).all fun p => p.values.length == s0.values.length) = true := by
    rw [List.all_eq_true]
    intro p hp
    exact beq_iff_eq.mpr (H.2.2.2 p hp s0 (by simp))
  constructor
  · intro hmethod
    obtain ⟨ms, hloop, hlen, hidx⟩ := nn_loop_spec cfg rfl hvs (s0 :: srest) 0 hvs
    have hloop2 : Interpolator.interpolate_nn_loop (s0 :: srest) (s0 :: srest) ms =
        .ok (s0 :: srest) := by
      have hhyp : ∀ j m, ms[j]? = some m → m.target_index = 0 + j ∧
          ∃ tj, (s0 :: srest)[0 + j]? = some tj ∧
            m.source_lon = tj.gridPoint.longitude ∧
            m.source_lat = tj.gridPoint.latitude := by
        intro j m hm
        have hjlt : j < ms.length := (List.getElem?_eq_some.mp hm).1
        rw [hlen] at hjlt
        have htj : (s0 :: srest)[j]? = some ((s0 :: srest)[j]) :=
          List.getElem?_eq_getElem hjlt
        obtain ⟨j2, sj, hfirst, hms⟩ := hidx j _ htj
        rw [hm] at hms
        have hmr := Option.some_inj.mp hms
        subst hmr
        have htjmem : (s0 :: srest)[j] ∈ s0 :: srest := List.getElem?_mem htj
        have hsjmem : sj ∈ s0 :: srest := List.getElem?_mem hfirst.1
        have hmin := hfirst.2.1 _ htjmem
        have h0 : dist_pt cfg ((s0 :: srest)[j]) sj = 0 := by
          have h1 := dist_pt_self cfg ((s0 :: srest)[j])
          have h2 := dist_pt_nonneg cfg ((s0 :: srest)[j]) sj
          rw [h1] at hmin
          linarith
        have hgp : sj.gridPoint = ((s0 :: srest)[j]).gridPoint :=
          H.2.1 _ htjmem sj hsjmem h0
        exact ⟨rfl, (s0 :: srest)[j], by simpa using htj, by rw [hgp], by rw [hgp]⟩
      have hlen2 : 0 + ms.length = (s0 :: srest).length := by simpa using hlen
      have hres := nn_rt_loop H ms 0 hhyp hlen2
      simpa using hres
    refine ⟨ms, ?_, ?_⟩
    · show SpatialIndex.nn_loop cfg (s0 :: srest) 0 (s0 :: srest) = .ok ms
      exact hloop
    · show Interpolator.interpolate cfg (s0 :: srest) (s0 :: srest) ms [] =
        .ok (s0 :: srest)
      simp only [Interpolator.interpolate, hmethod]
      rw [if_pos hall]
      simp only [Interpolator.interpolate_nearest_neighbor, hloop2]
  · intro hmethod hmax hmin
    obtain ⟨ms, hloop, hlen, hidx⟩ :=
      idw_rt_find rfl H hrad hmax hmin (s0 :: srest) 0 (fun x hx => hx)
    have hloop2 : Interpolator.interpolate_idw_loop cfg (s0 :: srest) (s0 :: srest)
        ms = .ok (s0 :: srest) := by
      have hhyp : ∀ j m, ms[j]? = some m → m.target_index = 0 + j ∧
          m.is_fallback = false ∧
          ∃ tj sh, (s0 :: srest)[0 + j]? = some tj ∧ sh ∈ s0 :: srest ∧
            sh.gridPoint = tj.gridPoint ∧
            ∃ d, m.neighbors = [(sh.gridPoint.longitude, sh.gridPoint.latitude, d)] := by
        intro j m hm
        obtain ⟨h1, h2, tk, sh, h3, h4, h5, d, h6⟩ := hidx j m hm
        exact ⟨h1, h2, tk, sh, by simpa using h3, h4, h5, d, h6⟩
      have hlen2 : 0 + ms.length = (s0 :: srest).length := by simpa using hlen
      have hres := idw_rt_loop H ms 0 hhyp hlen2
      simpa using hres
    refine ⟨ms, ?_, ?_⟩
    · show SpatialIndex.idw_loop cfg (s0 :: srest) 0 (s0 :: srest) = .ok ms
      exact hloop
    · show Interpolator.interpolate cfg (s0 :: srest) (s0 :: srest) [] ms =
        .ok (s0 :: srest)
      simp only [Interpolator.interpolate, hmethod]
      rw [if_pos hall]
      simp only [Interpolator.interpolate_idw, hloop2]

/-- Witness for the amended C8: a single source at the origin, used as its
own target, under the Euclidean NN configuration and under the Euclidean IDW
configuration with `max_points = min_points = 1`; both pipelines return the
source list itself. -/
theorem round_trip_claim_witness :
    (∃ ms, SpatialIndex.find_nearest_neighbors cfg_nn [pt_origin] [pt_origin] =
        .ok ms ∧
      Interpolator.interpolate cfg_nn [pt_origin] [pt_origin] ms [] =
        .ok [pt_origin]) ∧
    (∃ ms, SpatialIndex.find_idw_neighbors cfg_rt [pt_origin] [pt_origin] =
        .ok ms ∧
      Interpolator.interpolate cfg_rt [pt_origin] [pt_origin] [] ms =
        .ok [pt_origin]) := by
  have hH1 : RoundTripHyps cfg_nn [pt_origin] := by
    refine ⟨?_, ?_, ?_, ?_⟩
    · intro s hs
      rw [List.mem_singleton] at hs
      subst hs
      exact ⟨by norm_num [pt_origin], by norm_num [pt_origin]⟩
    · intro t ht s hs _
      rw [List.mem_singleton] at ht hs
      subst ht
      subst hs
      rfl
    · intro s1 h1 s2 h2 _ _ _
      rw [List.mem_singleton] at h1 h2
      subst h1
      subst h2
      rfl
    · intro s1 h1 s2 h2
      rw [List.mem_singleton] at h1 h2
      subst h1
      subst h2
      rfl
  have hH2 : RoundTripHyps cfg_rt [pt_origin] := by
    refine ⟨?_, ?_, ?_, ?_⟩
    · intro s hs
      rw [List.mem_singleton] at hs
      subst hs
      exact ⟨by norm_num [pt_origin], by norm_num [pt_origin]⟩
    · intro t ht s hs _
      rw [List.mem_singleton] at ht hs
      subst ht
      subst hs
      rfl
    · intro s1 h1 s2 h2 _ _ _
      rw [List.mem_singleton] at h1 h2
      subst h1
      subst h2
      rfl
    · intro s1 h1 s2 h2
      rw [List.mem_singleton] at h1 h2
      subst h1
      subst h2
      rfl
  exact ⟨(round_trip_claim cfg_nn [pt_origin] (by simp) hH1
      (by norm_num [cfg_nn, cfg_a, default_config])).1 rfl,
    (round_trip_claim cfg_rt [pt_origin] (by simp) hH2
      (by norm_num [cfg_rt, cfg_a, default_config])).2 rfl rfl rfl⟩

end fastregrid
